import Mathlib

/-!
Verification development for the libvirt Prometheus exporter
(`libvirt_exporter.go` and `pkg/utils/utils.go`).

The Go code is shallowly embedded: every hypervisor / kernel interaction is
an oracle recorded in an environment structure, metrics sent on the channel
become elements of a `List Metric` (in emission order), `float64` arithmetic
on integral counters is modelled exactly over `ℚ`, Go's `uint64`/`int64`
values become `Nat`/`Int` (the claims under study do not depend on overflow),
and a Go panic (nil-pointer dereference) is the `panicked` outcome.
-/

namespace LibvirtExp

/-- Models a Go `error` as seen by `err.(libvirt.Error)` type assertions:
either a `libvirt.Error` carrying its numeric `Code`, or any other error. -/
inductive GoErr where
  | libvirt (code : Nat) (msg : String)
  | other (msg : String)
deriving DecidableEq

/-- Numeric value of `libvirt.ERR_OPERATION_INVALID` (virerror.h). -/
def ERR_OPERATION_INVALID : Nat := 55

/-- Numeric value of `libvirt.ERR_OPERATION_UNSUPPORTED` (virerror.h). -/
def ERR_OPERATION_UNSUPPORTED : Nat := 84

/-- True when the Go type assertion `err.(libvirt.Error)` succeeds. -/
def isLibvirtError : GoErr → Bool
  | GoErr.libvirt _ _ => true
  | GoErr.other _ => false

/-- The condition under which `CollectDomain` tolerates a failure of
`GetDomainVcpuPids` / `GetVcpus`: `ok && lverr.Code == ERR_OPERATION_INVALID`
(the source returns the error when `!ok || lverr.Code != ERR_OPERATION_INVALID`). -/
def isOpInvalidTolerated : GoErr → Bool
  | GoErr.libvirt c _ => c == ERR_OPERATION_INVALID
  | GoErr.other _ => false

/-- Identity of a `prometheus.Desc`; one constructor per `prometheus.NewDesc`
variable in the source. -/
inductive MDesc where
  | up
  | versionsInfo
  | poolCapacity
  | poolAllocation
  | poolAvailable
  | infoMeta
  | infoMaxMem
  | infoMemUsage
  | infoNrVirtCpu
  | infoCpuTime
  | infoVState
  | vcpuState
  | vcpuTime
  | vcpuCpu
  | vcpuWait
  | vcpuDelay
  | blockMeta
  | blockRdBytes
  | blockRdReq
  | blockRdTime
  | blockWrBytes
  | blockWrReq
  | blockWrTime
  | blockFlReq
  | blockFlTime
  | blockAllocation
  | blockCapacity
  | blockPhysical
  | tuneTotalBytesSec
  | tuneReadBytesSec
  | tuneWriteBytesSec
  | tuneTotalIopsSec
  | tuneReadIopsSec
  | tuneWriteIopsSec
  | tuneTotalBytesSecMax
  | tuneReadBytesSecMax
  | tuneWriteBytesSecMax
  | tuneTotalIopsSecMax
  | tuneReadIopsSecMax
  | tuneWriteIopsSecMax
  | tuneTotalBytesSecMaxLength
  | tuneReadBytesSecMaxLength
  | tuneWriteBytesSecMaxLength
  | tuneTotalIopsSecMaxLength
  | tuneReadIopsSecMaxLength
  | tuneWriteIopsSecMaxLength
  | tuneSizeIopsSec
  | ifaceMeta
  | ifaceRxBytes
  | ifaceRxPackets
  | ifaceRxErrs
  | ifaceRxDrop
  | ifaceTxBytes
  | ifaceTxPackets
  | ifaceTxErrs
  | ifaceTxDrop
  | memMajorFault
  | memMinorFault
  | memUnused
  | memAvailable
  | memActualBalloon
  | memRss
  | memUsable
  | memDiskCaches
  | memUsedPercent
deriving DecidableEq

/-- Kind of a metric value (`prometheus.GaugeValue` / `prometheus.CounterValue`). -/
inductive MetricKind where
  | gauge
  | counter
deriving DecidableEq

/-- One metric record sent over the channel by `prometheus.MustNewConstMetric`:
descriptor, kind, float64 value (as an exact rational) and label values in
source order. -/
structure Metric where
  desc : MDesc
  kind : MetricKind
  value : ℚ
  labels : List String
deriving DecidableEq

/-- Outcome of a collection function: normal return, returned error, or a
Go runtime panic. -/
inductive COutcome where
  | ok
  | err (e : GoErr)
  | panicked
deriving DecidableEq

/-! ### String helpers shared by the embedding -/

/-- Models `filepath.Join` for two already-clean path elements: empty elements
are dropped, otherwise the parts are joined with a single separator. -/
def pathJoin (a b : String) : String :=
  if a = "" then b else if b = "" then a else a ++ ("/") ++ b

/-- Models `strings.Contains s sub` on the underlying character lists:
`charsStartWith s p` is true when `p` is a prefix of `s`. -/
def charsStartWith : List Char → List Char → Bool
  | _, [] => true
  | [], _ :: _ => false
  | c :: s, p :: ps => c == p && charsStartWith s ps

/-- True when `pat` occurs as a contiguous run inside `s`. -/
def charsContain : List Char → List Char → Bool
  | [], pat => charsStartWith [] pat
  | c :: rest, pat => charsStartWith (c :: rest) pat || charsContain rest pat

/-- Models `strings.Contains`. -/
def strContains (s pat : String) : Bool :=
  charsContain s.toList pat.toList

/-- Decimal digit character, `digitChr d = '0' + d` for `d < 10`. -/
def digitChr (d : Nat) : Char := Char.ofNat (48 + d)

/-- Little-endian base-10 digits of `n`, computed with explicit fuel so the
definition is structurally recursive (the fuel `n` always suffices because
`n / 10 < n` for `n > 0`). -/
def digitsRevAux : Nat → Nat → List Nat
  | 0, _ => []
  | _, 0 => []
  | fuel + 1, n + 1 => ((n + 1) % 10) :: digitsRevAux fuel ((n + 1) / 10)

/-- Little-endian base-10 digits of `n` (empty for `0`). -/
def natDigitsRev (n : Nat) : List Nat := digitsRevAux n n

/-- Models `strconv.FormatInt(int64(n), 10)` for non-negative values
(also the `%d` verb of `fmt.Sprintf`). -/
def formatNat (n : Nat) : String :=
  if n = 0 then "0" else String.mk ((natDigitsRev n).reverse.map digitChr)

/-- Models `strconv.Itoa` / `strconv.FormatInt(i, 10)`. -/
def formatInt (i : Int) : String :=
  if i < 0 then ("-") ++ formatNat i.natAbs else formatNat i.toNat

/-! ### `pkg/utils/utils.go` -/

/-- The fields of a `/proc/[pid]/schedstat` file (`utils.ProcPIDSchedStat`). -/
structure ProcPIDSchedStat where
  pid : Int
  cputime : Nat
  runqueue : Nat
  timeslices : Nat
deriving DecidableEq

/-- Whitespace as skipped by `fmt.Fscan` (ASCII fragment of `unicode.IsSpace`;
schedstat files only ever contain plain spaces). -/
def fscanSpace (c : Char) : Bool :=
  c == ' ' || c == '\t' || c == '\n' || c == '\x0b' || c == '\x0c' || c == '\r'

/-- Numeric value of a list of decimal digit characters (most significant
first); `[]` yields `0`. -/
def natOfDigits (ds : List Char) : Nat :=
  ds.foldl (fun a c => a * 10 + (c.toNat - 48)) 0

/-- Scans one base-10 unsigned integer the way `fmt.Fscan` does for a
`*uint64` argument: skip whitespace, then a non-empty maximal run of decimal
digits (overflow is not modelled; schedstat values fit in `uint64`). -/
def scanNatTok (s : List Char) : Option (Nat × List Char) :=
  let s1 := s.dropWhile fscanSpace
  let ds := s1.takeWhile Char.isDigit
  if ds.isEmpty then none else some (natOfDigits ds, s1.dropWhile Char.isDigit)

/-- Models `fmt.Fscan(buf, &a, &b, &c)` for three `uint64` fields: succeeds
only if three integers can be scanned in sequence. -/
def fscanNat3 (s : String) : Option (Nat × Nat × Nat) :=
  match scanNatTok s.toList with
  | none => none
  | some (a, r1) =>
    match scanNatTok r1 with
    | none => none
    | some (b, r2) =>
      match scanNatTok r2 with
      | none => none
      | some (c, _) => some (a, b, c)

/-- Models `utils.GetProcPIDSchedStat`: reads
`<procPath>/<pid>/schedstat` (a read error yields empty content, since the
source ignores the `os.ReadFile` error) and scans three counters from it;
`none` models the `(nil, err)` return. `readFile` is the filesystem oracle. -/
def GetProcPIDSchedStat (readFile : String → Option String) (procPath : String)
    (pid : Int) : Option ProcPIDSchedStat :=
  let schedStatPath := pathJoin (pathJoin procPath (formatInt pid)) ("schedstat")
  let filecontent := (readFile schedStatPath).getD ("")
  match fscanNat3 filecontent with
  | none => none
  | some (a, b, c) => some ⟨pid, a, b, c⟩

/-- Models `utils.GetCmdLine`: reads `<procPath>/<pid>/cmdline`, returning the
empty string on any read failure. -/
def GetCmdLine (readFile : String → Option String) (procPath : String) (pid : Int) : String :=
  (readFile (pathJoin (pathJoin procPath (formatInt pid)) ("cmdline"))).getD ("")

/-! ### Thread-id scanning (`GetDomainVcpuPids`) -/

/-- Character class of the regexp `\s` in Go (`[\t\n\f\r ]`). -/
def regexSpace (c : Char) : Bool :=
  c == '\t' || c == '\n' || c == '\x0c' || c == '\r' || c == ' '

/-- The literal part of the pattern `thread_id=([0-9]*)\s`. -/
def threadPat : List Char := "thread_id=".toList

/-- Attempts to match `thread_id=([0-9]*)\s` at the head of `l`. On success
returns the captured number (`strconv.Atoi` of the digits, `0` for an empty
capture since the source drops the error) and the remainder after the match. -/
def matchThreadAt (l : List Char) : Option (Nat × List Char) :=
  if l.take 10 = threadPat then
    let rest := l.drop 10
    let ds := rest.takeWhile Char.isDigit
    match rest.dropWhile Char.isDigit with
    | [] => none
    | c :: tail => if regexSpace c then some (natOfDigits ds, tail) else none
  else none

/-- Fuel-driven scan for all non-overlapping leftmost matches of
`thread_id=([0-9]*)\s` (the behaviour of `FindAllStringSubmatch`); each step
consumes at least one character, so fuel `≥ length` computes the full scan. -/
def scanThreadsAux : Nat → List Char → List Nat
  | 0, _ => []
  | _ + 1, [] => []
  | fuel + 1, c :: rest =>
    match matchThreadAt (c :: rest) with
    | some (n, r) => n :: scanThreadsAux fuel r
    | none => scanThreadsAux fuel rest

/-- All thread ids parsed from a `qemu-monitor-command info cpus` response. -/
def scanThreads (s : String) : List Nat :=
  scanThreadsAux s.length s.toList

/-- Models `GetDomainVcpuPids`: the monitor command's textual response (or its
error) is the oracle `resp`; on success the thread ids are extracted by the
regexp scan. On error the zero-value empty slice is returned alongside it. -/
def GetDomainVcpuPids (resp : Except GoErr String) : Except GoErr (List Int) :=
  match resp with
  | Except.error e => Except.error e
  | Except.ok s => Except.ok ((scanThreads s).map Int.ofNat)

/-! ### Host environment and `GetDomainPid` -/

/-- Host-level state of one scrape: the procfs mount path, the process list
captured by `utils.GetProcessList` into the global `processes`, and the
filesystem read oracle (`os.ReadFile`, `none` = read error). -/
structure HostEnv where
  procFSPath : String
  processes : List Int
  readFile : String → Option String

/-- Models `GetDomainPid`: linear scan of the process list, first process
whose non-empty command line contains the domain name wins; the named return
`pid` stays `0` when nothing matches. -/
def GetDomainPidAux (readFile : String → Option String) (procPath : String)
    (domainName : String) : List Int → Int
  | [] => 0
  | p :: rest =>
    let cmdline := GetCmdLine readFile procPath p
    if cmdline ≠ "" ∧ strContains cmdline domainName then p
    else GetDomainPidAux readFile procPath domainName rest

/-- `GetDomainPid` over a `HostEnv`. -/
def GetDomainPid (henv : HostEnv) (domainName : String) : Int :=
  GetDomainPidAux henv.readFile henv.procFSPath domainName henv.processes

/-! ### Data carried by the batched `GetAllDomainStats` call -/

/-- The fields of `libvirt.DomainStatsVcpu` used by the source
(`stat.Vcpu` entries): the optional wait and delay counters. -/
structure VcpuStat where
  waitSet : Bool
  wait : Nat
  delaySet : Bool
  delay : Nat
deriving DecidableEq

/-- The fields of `libvirt.DomainStatsBlock` used by the source. -/
structure BlockStat where
  name : String
  pathSet : Bool
  path : String
  rdBytesSet : Bool
  rdBytes : Int
  rdReqsSet : Bool
  rdReqs : Int
  rdTimesSet : Bool
  rdTimes : Int
  wrBytesSet : Bool
  wrBytes : Int
  wrReqsSet : Bool
  wrReqs : Int
  wrTimesSet : Bool
  wrTimes : Int
  flReqsSet : Bool
  flReqs : Int
  flTimesSet : Bool
  flTimes : Int
  allocationSet : Bool
  allocation : Int
  capacitySet : Bool
  capacity : Int
  physicalSet : Bool
  physical : Int
deriving DecidableEq

/-- The fields of `libvirt.DomainStatsNet` used by the source. -/
structure NetStat where
  name : String
  rxBytesSet : Bool
  rxBytes : Int
  rxPktsSet : Bool
  rxPkts : Int
  rxErrsSet : Bool
  rxErrs : Int
  rxDropSet : Bool
  rxDrop : Int
  txBytesSet : Bool
  txBytes : Int
  txPktsSet : Bool
  txPkts : Int
  txErrsSet : Bool
  txErrs : Int
  txDropSet : Bool
  txDrop : Int
deriving DecidableEq

/-- The per-domain part of one `libvirt.DomainStats` batch entry. -/
structure DomainStatsRec where
  vcpu : List VcpuStat
  block : List BlockStat
  net : List NetStat
deriving DecidableEq

/-- Result of `stat.Domain.GetInfo`. -/
structure DomainInfo where
  state : Nat
  maxMem : Nat
  memory : Nat
  nrVirtCpu : Nat
  cpuTime : Nat
deriving DecidableEq

/-- One entry of `stat.Domain.GetVcpus()`. -/
structure VcpuInfo where
  number : Nat
  state : Int
  cpuTime : Nat
  cpu : Int
deriving DecidableEq

/-- Disk attributes from the decoded XML descriptor, as read off
`libvirtSchema.Disk` by the source (`Target.Device`, `Target.Bus`,
`Source.Name`, `Serial`, `DiskType`, `Driver.Type/Cache/Discard`). -/
structure DiskXML where
  targetDevice : String
  targetBus : String
  sourceName : String
  serial : String
  diskType : String
  driverType : String
  driverCache : String
  driverDiscard : String
deriving DecidableEq

/-- Interface attributes from the decoded XML descriptor
(`Target.Device`, `Source.Bridge`, `Virtualport.Parameters.InterfaceID`). -/
structure IfaceXML where
  targetDevice : String
  sourceBridge : String
  interfaceId : String
deriving DecidableEq

/-- The decoded XML description of a domain, restricted to the fields the
source reads (device lists plus the Nova ownership metadata). -/
structure DomainXML where
  disks : List DiskXML
  interfaces : List IfaceXML
  novaName : String
  novaFlavor : String
  userName : String
  userUUID : String
  projectName : String
  projectUUID : String
  rootType : String
  rootUUID : String
deriving DecidableEq

/-- One entry of the `stat.Domain.MemoryStats(11, 0)` result
(`libvirt.DomainMemoryStat`): a tag and a `uint64` value. -/
structure DomainMemoryStat where
  tag : Int
  val : Nat
deriving DecidableEq

/-- The aggregate record `libvirtSchema.VirDomainMemoryStats` as populated by
`memoryStatCollect` (all fields `uint64`). -/
structure VirDomainMemoryStats where
  majorFault : Nat
  minorFault : Nat
  unused : Nat
  available : Nat
  actualBalloon : Nat
  rss : Nat
  usable : Nat
  diskCaches : Nat
deriving DecidableEq

/-- The zero value of `VirDomainMemoryStats`. -/
def VirDomainMemoryStats.zero : VirDomainMemoryStats := ⟨0, 0, 0, 0, 0, 0, 0, 0⟩

/-- Models `memoryStatCollect`: fold the tagged entries into the record
(tags 2..8 and 10, later entries overwrite earlier ones). -/
def memoryStatCollect (memorystat : List DomainMemoryStat) : VirDomainMemoryStats :=
  memorystat.foldl
    (fun m s =>
      if s.tag = 2 then { m with majorFault := s.val }
      else if s.tag = 3 then { m with minorFault := s.val }
      else if s.tag = 4 then { m with unused := s.val }
      else if s.tag = 5 then { m with available := s.val }
      else if s.tag = 6 then { m with actualBalloon := s.val }
      else if s.tag = 7 then { m with rss := s.val }
      else if s.tag = 8 then { m with usable := s.val }
      else if s.tag = 10 then { m with diskCaches := s.val }
      else m)
    VirDomainMemoryStats.zero

/-- The derived used-percent computed by `CollectDomain` from a successful
memory-statistics result: `(available - usable) / (available / 100)` when both
are non-zero, else the zero value of the `usedPercent` variable. -/
def domainUsedPercent (l : List DomainMemoryStat) : ℚ :=
  let m := memoryStatCollect l
  if m.usable ≠ 0 ∧ m.available ≠ 0 then
    ((m.available : ℚ) - (m.usable : ℚ)) / ((m.available : ℚ) / 100)
  else 0

/-- Result of `stat.Domain.GetBlockIoTune(disk.Name, 0)`: the 19 optional
limit fields read by the source. -/
structure BlockIoTuneParams where
  totalBytesSecSet : Bool
  totalBytesSec : Nat
  readBytesSecSet : Bool
  readBytesSec : Nat
  writeBytesSecSet : Bool
  writeBytesSec : Nat
  totalIopsSecSet : Bool
  totalIopsSec : Nat
  readIopsSecSet : Bool
  readIopsSec : Nat
  writeIopsSecSet : Bool
  writeIopsSec : Nat
  totalBytesSecMaxSet : Bool
  totalBytesSecMax : Nat
  readBytesSecMaxSet : Bool
  readBytesSecMax : Nat
  writeBytesSecMaxSet : Bool
  writeBytesSecMax : Nat
  totalIopsSecMaxSet : Bool
  totalIopsSecMax : Nat
  readIopsSecMaxSet : Bool
  readIopsSecMax : Nat
  writeIopsSecMaxSet : Bool
  writeIopsSecMax : Nat
  totalBytesSecMaxLengthSet : Bool
  totalBytesSecMaxLength : Nat
  readBytesSecMaxLengthSet : Bool
  readBytesSecMaxLength : Nat
  writeBytesSecMaxLengthSet : Bool
  writeBytesSecMaxLength : Nat
  totalIopsSecMaxLengthSet : Bool
  totalIopsSecMaxLength : Nat
  readIopsSecMaxLengthSet : Bool
  readIopsSecMaxLength : Nat
  writeIopsSecMaxLengthSet : Bool
  writeIopsSecMaxLength : Nat
  sizeIopsSecSet : Bool
  sizeIopsSec : Nat
deriving DecidableEq

/-- Per-domain oracle: results of every call `CollectDomain` makes against the
hypervisor for one batch entry, plus the raw batch statistics and the handle
identity used to track `Domain.Free`. `getXMLDesc` combines `GetXMLDesc` and
`xml.Unmarshal` (either failure makes `CollectDomain` return the error). -/
structure DomainEnv where
  handleId : Nat
  getName : Except GoErr String
  monitorCpus : Except GoErr String
  getUUID : Except GoErr String
  getXMLDesc : Except GoErr DomainXML
  getInfo : Except GoErr DomainInfo
  getVcpus : Except GoErr (List VcpuInfo)
  blockIoTune : String → Except GoErr BlockIoTuneParams
  memoryStats : Except GoErr (List DomainMemoryStat)
  stat : DomainStatsRec

/-- A recorded invocation of the scheduler-statistics estimator
(`utils.GetProcPIDSchedStat`) from the VCPU loop: the VCPU index it was
invoked for, the task-root path argument and the thread id argument. -/
structure SchedCall where
  idx : Nat
  taskRoot : String
  pid : Int
deriving DecidableEq

/-! ### Metric emission sections of `CollectDomain` -/

/-- The six domain-info metrics emitted right after `GetInfo` succeeds. -/
def domainInfoMetrics (domainName domainUUID : String) (desc : DomainXML)
    (info : DomainInfo) : List Metric :=
  [⟨MDesc.infoMeta, MetricKind.gauge, 1,
    [domainName, domainUUID, desc.novaName, desc.novaFlavor, desc.userName,
     desc.userUUID, desc.projectName, desc.projectUUID, desc.rootType, desc.rootUUID]⟩,
   ⟨MDesc.infoMaxMem, MetricKind.gauge, (info.maxMem : ℚ) * 1024, [domainName]⟩,
   ⟨MDesc.infoMemUsage, MetricKind.gauge, (info.memory : ℚ) * 1024, [domainName]⟩,
   ⟨MDesc.infoNrVirtCpu, MetricKind.gauge, (info.nrVirtCpu : ℚ), [domainName]⟩,
   ⟨MDesc.infoCpuTime, MetricKind.counter, (info.cpuTime : ℚ) / 1000 / 1000 / 1000, [domainName]⟩,
   ⟨MDesc.infoVState, MetricKind.gauge, (info.state : ℚ), [domainName]⟩]

/-- The per-VCPU state/time/cpu metrics emitted from a successful
`GetVcpus()` result. -/
def vcpuInfoMetrics (domainName : String) : List VcpuInfo → List Metric
  | [] => []
  | v :: rest =>
    ⟨MDesc.vcpuState, MetricKind.gauge, (v.state : ℚ), [domainName, formatNat v.number]⟩ ::
    ⟨MDesc.vcpuTime, MetricKind.counter, (v.cpuTime : ℚ) / 1000 / 1000 / 1000,
      [domainName, formatNat v.number]⟩ ::
    ⟨MDesc.vcpuCpu, MetricKind.gauge, (v.cpu : ℚ), [domainName, formatNat v.number]⟩ ::
    vcpuInfoMetrics domainName rest

/-- Joint output of the `stat.Vcpu` loop: metrics, recorded estimator
invocations, and error-log events. -/
structure VcpuLoopOut where
  metrics : List Metric
  schedCalls : List SchedCall
  logs : List String
deriving DecidableEq

/-- The `if vcpu.WaitSet` emission of one `stat.Vcpu` entry. -/
def vcpuWaitStep (domainName : String) (i : Nat) (v : VcpuStat) : List Metric :=
  if v.waitSet then
    [⟨MDesc.vcpuWait, MetricKind.counter, (v.wait : ℚ) / 1000 / 1000 / 1000,
      [domainName, formatNat i]⟩]
  else []

/-- The delay emission of one `stat.Vcpu` entry at index `i` (`cpuNum`): the
hypervisor delay when `DelaySet`, otherwise — if the index is within the
resolved thread ids — the estimator's run-queue time, a failed read being
logged and skipped. Returns (metrics, estimator invocations, logs). -/
def vcpuDelayStep (readFile : String → Option String) (domainName taskRoot : String)
    (pids : List Int) (i : Nat) (v : VcpuStat) :
    List Metric × List SchedCall × List String :=
  if v.delaySet then
    ([⟨MDesc.vcpuDelay, MetricKind.counter, (v.delay : ℚ) / 1000000000,
       [domainName, formatNat i]⟩], [], [])
  else if h : pids.length ≤ i then ([], [], [])
  else
    let vcpuPid := pids.get ⟨i, Nat.lt_of_not_le h⟩
    match GetProcPIDSchedStat readFile taskRoot vcpuPid with
    | none => ([], [⟨i, taskRoot, vcpuPid⟩], [("unable to collect vcpu delay metric")])
    | some s =>
      ([⟨MDesc.vcpuDelay, MetricKind.counter, (s.runqueue : ℚ) / 1000000000,
         [domainName, formatNat i]⟩], [⟨i, taskRoot, vcpuPid⟩], [])

/-- The `for cpuNum, vcpu := range stat.Vcpu` loop. `i` is the running VCPU
index `cpuNum`, `pids` the resolved thread ids (`domainVcpuPids`), `taskRoot`
the precomputed `filepath.Join(procFSPath, itoa(domainPid), "task")`. -/
def collectVcpuStatLoop (readFile : String → Option String) (domainName taskRoot : String)
    (pids : List Int) : Nat → List VcpuStat → VcpuLoopOut
  | _, [] => ⟨[], [], []⟩
  | i, v :: rest =>
    let step := vcpuDelayStep readFile domainName taskRoot pids i v
    let r := collectVcpuStatLoop readFile domainName taskRoot pids (i + 1) rest
    ⟨vcpuWaitStep domainName i v ++ step.1 ++ r.metrics,
     step.2.1 ++ r.schedCalls, step.2.2 ++ r.logs⟩

/-- The per-field block counters emitted for one (non-skipped) block device. -/
def diskCounterMetrics (domainName : String) (d : BlockStat) : List Metric :=
  (if d.rdBytesSet then
    [⟨MDesc.blockRdBytes, MetricKind.counter, (d.rdBytes : ℚ), [domainName, d.name]⟩] else []) ++
  (if d.rdReqsSet then
    [⟨MDesc.blockRdReq, MetricKind.counter, (d.rdReqs : ℚ), [domainName, d.name]⟩] else []) ++
  (if d.rdTimesSet then
    [⟨MDesc.blockRdTime, MetricKind.counter, (d.rdTimes : ℚ) / 1000000000, [domainName, d.name]⟩] else []) ++
  (if d.wrBytesSet then
    [⟨MDesc.blockWrBytes, MetricKind.counter, (d.wrBytes : ℚ), [domainName, d.name]⟩] else []) ++
  (if d.wrReqsSet then
    [⟨MDesc.blockWrReq, MetricKind.counter, (d.wrReqs : ℚ), [domainName, d.name]⟩] else []) ++
  (if d.wrTimesSet then
    [⟨MDesc.blockWrTime, MetricKind.counter, (d.wrTimes : ℚ) / 1000000000, [domainName, d.name]⟩] else []) ++
  (if d.flReqsSet then
    [⟨MDesc.blockFlReq, MetricKind.counter, (d.flReqs : ℚ), [domainName, d.name]⟩] else []) ++
  (if d.flTimesSet then
    [⟨MDesc.blockFlTime, MetricKind.counter, (d.flTimes : ℚ) / 1000000000, [domainName, d.name]⟩] else []) ++
  (if d.allocationSet then
    [⟨MDesc.blockAllocation, MetricKind.gauge, (d.allocation : ℚ), [domainName, d.name]⟩] else []) ++
  (if d.capacitySet then
    [⟨MDesc.blockCapacity, MetricKind.gauge, (d.capacity : ℚ), [domainName, d.name]⟩] else []) ++
  (if d.physicalSet then
    [⟨MDesc.blockPhysical, MetricKind.gauge, (d.physical : ℚ), [domainName, d.name]⟩] else [])

/-- The per-field I/O tuning metrics emitted from a successful
`GetBlockIoTune` result. -/
def ioTuneMetrics (domainName dev : String) (p : BlockIoTuneParams) : List Metric :=
  (if p.totalBytesSecSet then
    [⟨MDesc.tuneTotalBytesSec, MetricKind.gauge, (p.totalBytesSec : ℚ), [domainName, dev]⟩] else []) ++
  (if p.readBytesSecSet then
    [⟨MDesc.tuneReadBytesSec, MetricKind.gauge, (p.readBytesSec : ℚ), [domainName, dev]⟩] else []) ++
  (if p.writeBytesSecSet then
    [⟨MDesc.tuneWriteBytesSec, MetricKind.gauge, (p.writeBytesSec : ℚ), [domainName, dev]⟩] else []) ++
  (if p.totalIopsSecSet then
    [⟨MDesc.tuneTotalIopsSec, MetricKind.gauge, (p.totalIopsSec : ℚ), [domainName, dev]⟩] else []) ++
  (if p.readIopsSecSet then
    [⟨MDesc.tuneReadIopsSec, MetricKind.gauge, (p.readIopsSec : ℚ), [domainName, dev]⟩] else []) ++
  (if p.writeIopsSecSet then
    [⟨MDesc.tuneWriteIopsSec, MetricKind.gauge, (p.writeIopsSec : ℚ), [domainName, dev]⟩] else []) ++
  (if p.totalBytesSecMaxSet then
    [⟨MDesc.tuneTotalBytesSecMax, MetricKind.gauge, (p.totalBytesSecMax : ℚ), [domainName, dev]⟩] else []) ++
  (if p.readBytesSecMaxSet then
    [⟨MDesc.tuneReadBytesSecMax, MetricKind.gauge, (p.readBytesSecMax : ℚ), [domainName, dev]⟩] else []) ++
  (if p.writeBytesSecMaxSet then
    [⟨MDesc.tuneWriteBytesSecMax, MetricKind.gauge, (p.writeBytesSecMax : ℚ), [domainName, dev]⟩] else []) ++
  (if p.totalIopsSecMaxSet then
    [⟨MDesc.tuneTotalIopsSecMax, MetricKind.gauge, (p.totalIopsSecMax : ℚ), [domainName, dev]⟩] else []) ++
  (if p.readIopsSecMaxSet then
    [⟨MDesc.tuneReadIopsSecMax, MetricKind.gauge, (p.readIopsSecMax : ℚ), [domainName, dev]⟩] else []) ++
  (if p.writeIopsSecMaxSet then
    [⟨MDesc.tuneWriteIopsSecMax, MetricKind.gauge, (p.writeIopsSecMax : ℚ), [domainName, dev]⟩] else []) ++
  (if p.totalBytesSecMaxLengthSet then
    [⟨MDesc.tuneTotalBytesSecMaxLength, MetricKind.gauge, (p.totalBytesSecMaxLength : ℚ), [domainName, dev]⟩] else []) ++
  (if p.readBytesSecMaxLengthSet then
    [⟨MDesc.tuneReadBytesSecMaxLength, MetricKind.gauge, (p.readBytesSecMaxLength : ℚ), [domainName, dev]⟩] else []) ++
  (if p.writeBytesSecMaxLengthSet then
    [⟨MDesc.tuneWriteBytesSecMaxLength, MetricKind.gauge, (p.writeBytesSecMaxLength : ℚ), [domainName, dev]⟩] else []) ++
  (if p.totalIopsSecMaxLengthSet then
    [⟨MDesc.tuneTotalIopsSecMaxLength, MetricKind.gauge, (p.totalIopsSecMaxLength : ℚ), [domainName, dev]⟩] else []) ++
  (if p.readIopsSecMaxLengthSet then
    [⟨MDesc.tuneReadIopsSecMaxLength, MetricKind.gauge, (p.readIopsSecMaxLength : ℚ), [domainName, dev]⟩] else []) ++
  (if p.writeIopsSecMaxLengthSet then
    [⟨MDesc.tuneWriteIopsSecMaxLength, MetricKind.gauge, (p.writeIopsSecMaxLength : ℚ), [domainName, dev]⟩] else []) ++
  (if p.sizeIopsSecSet then
    [⟨MDesc.tuneSizeIopsSec, MetricKind.gauge, (p.sizeIopsSec : ℚ), [domainName, dev]⟩] else [])

/-- Models `WriteErrorOnce`: log the message only when the name is not yet in
the process-wide `errorsMap`; returns the updated map and the emitted log. -/
def WriteErrorOnce (err name : String) (errorsMap : List String) : List String × List String :=
  if errorsMap.contains name then (errorsMap, []) else (name :: errorsMap, [err])

/-- Models the error handling after `GetBlockIoTune` fails, transcribing the
source literally: `lverr, ok := err.(libvirt.Error); if !ok { switch lverr.Code
{...} }`. When the assertion succeeds (`ok`), the guard `!ok` skips the switch
entirely and the error is silently dropped. When it fails, `lverr` is the zero
`libvirt.Error`, whose `Code` is `0`, so the switch always takes `default:
return err`. Returns (updated errorsMap, logs, error to propagate). -/
def blockIoTuneErrHandle (e : GoErr) (errorsMap : List String) :
    List String × List String × Option GoErr :=
  if isLibvirtError e then (errorsMap, [], none)
  else
    let zeroCode : Nat := 0
    if zeroCode = ERR_OPERATION_INVALID then
      (errorsMap, [("invalid operation GetBlockIoTune")], none)
    else if zeroCode = ERR_OPERATION_UNSUPPORTED then
      let r := WriteErrorOnce ("Unsupported operation GetBlockIoTune") ("blkiotune_unsupported") errorsMap
      (r.1, r.2, none)
    else (errorsMap, [], some e)

/-- Joint output of the block-device loop. -/
structure BlockLoopOut where
  metrics : List Metric
  logs : List String
  errMap : List String
  ioTuneCalls : List String
  outcome : COutcome
deriving DecidableEq

/-- The `for _, disk := range stat.Block` loop. Devices named exactly
`hdc`/`hda` are skipped. Otherwise the XML disk list is searched for a
matching target device; the source then dereferences the `*libvirtSchema.Disk`
pointer unconditionally when emitting the metadata metric, so a missing match
is a nil-pointer dereference — modelled as the `panicked` outcome (nothing is
emitted for that device and the loop never returns normally). -/
def collectBlockLoop (ioTune : String → Except GoErr BlockIoTuneParams)
    (domainName : String) (xmlDisks : List DiskXML) (errorsMap : List String) :
    List BlockStat → BlockLoopOut
  | [] => ⟨[], [], errorsMap, [], COutcome.ok⟩
  | d :: rest =>
    if d.name = "hdc" ∨ d.name = "hda" then
      collectBlockLoop ioTune domainName xmlDisks errorsMap rest
    else
      match xmlDisks.find? (fun dev => dev.targetDevice == d.name) with
      | none => ⟨[], [], errorsMap, [], COutcome.panicked⟩
      | some dev =>
        let diskSource := if d.pathSet then d.path else dev.sourceName
        let metaM : Metric :=
          ⟨MDesc.blockMeta, MetricKind.gauge, 1,
           [domainName, d.name, diskSource, dev.serial, dev.targetBus, dev.diskType,
            dev.driverType, dev.driverCache, dev.driverDiscard]⟩
        let counters := diskCounterMetrics domainName d
        match ioTune d.name with
        | Except.error e =>
          let h := blockIoTuneErrHandle e errorsMap
          match h.2.2 with
          | some e2 => ⟨metaM :: counters, h.2.1, h.1, [d.name], COutcome.err e2⟩
          | none =>
            let r := collectBlockLoop ioTune domainName xmlDisks h.1 rest
            ⟨metaM :: counters ++ r.metrics, h.2.1 ++ r.logs, r.errMap,
             d.name :: r.ioTuneCalls, r.outcome⟩
        | Except.ok p =>
          let r := collectBlockLoop ioTune domainName xmlDisks errorsMap rest
          ⟨metaM :: counters ++ ioTuneMetrics domainName d.name p ++ r.metrics,
           r.logs, r.errMap, d.name :: r.ioTuneCalls, r.outcome⟩

/-- The per-field interface counters emitted for one network interface. -/
def ifaceCounterMetrics (domainName : String) (i : NetStat) : List Metric :=
  (if i.rxBytesSet then
    [⟨MDesc.ifaceRxBytes, MetricKind.counter, (i.rxBytes : ℚ), [domainName, i.name]⟩] else []) ++
  (if i.rxPktsSet then
    [⟨MDesc.ifaceRxPackets, MetricKind.counter, (i.rxPkts : ℚ), [domainName, i.name]⟩] else []) ++
  (if i.rxErrsSet then
    [⟨MDesc.ifaceRxErrs, MetricKind.counter, (i.rxErrs : ℚ), [domainName, i.name]⟩] else []) ++
  (if i.rxDropSet then
    [⟨MDesc.ifaceRxDrop, MetricKind.counter, (i.rxDrop : ℚ), [domainName, i.name]⟩] else []) ++
  (if i.txBytesSet then
    [⟨MDesc.ifaceTxBytes, MetricKind.counter, (i.txBytes : ℚ), [domainName, i.name]⟩] else []) ++
  (if i.txPktsSet then
    [⟨MDesc.ifaceTxPackets, MetricKind.counter, (i.txPkts : ℚ), [domainName, i.name]⟩] else []) ++
  (if i.txErrsSet then
    [⟨MDesc.ifaceTxErrs, MetricKind.counter, (i.txErrs : ℚ), [domainName, i.name]⟩] else []) ++
  (if i.txDropSet then
    [⟨MDesc.ifaceTxDrop, MetricKind.counter, (i.txDrop : ℚ), [domainName, i.name]⟩] else [])

/-- The `for _, iface := range stat.Net` loop: optional metadata metric (only
when a source bridge or a virtual-interface id is known) plus the counters. -/
def collectNetLoop (domainName : String) (xmlIfaces : List IfaceXML) :
    List NetStat → List Metric
  | [] => []
  | i :: rest =>
    let found := xmlIfaces.find? (fun net => net.targetDevice == i.name)
    let sourceBridge := match found with | some net => net.sourceBridge | none => ""
    let virtualInterface := match found with | some net => net.interfaceId | none => ""
    let metaM : List Metric :=
      if sourceBridge ≠ "" ∨ virtualInterface ≠ "" then
        [⟨MDesc.ifaceMeta, MetricKind.gauge, 1,
          [domainName, sourceBridge, i.name, virtualInterface]⟩]
      else []
    metaM ++ ifaceCounterMetrics domainName i ++ collectNetLoop domainName xmlIfaces rest

/-- The memory-statistics tail of `CollectDomain`: all nine metrics are
emitted unconditionally; on a failed `MemoryStats` call the record and the
used-percent stay at their zero values. -/
def memoryMetrics (domainName : String) (r : Except GoErr (List DomainMemoryStat)) :
    List Metric :=
  let ms := match r with
    | Except.ok l => memoryStatCollect l
    | Except.error _ => VirDomainMemoryStats.zero
  let usedPercent : ℚ := match r with
    | Except.ok l => domainUsedPercent l
    | Except.error _ => 0
  [⟨MDesc.memMajorFault, MetricKind.counter, (ms.majorFault : ℚ), [domainName]⟩,
   ⟨MDesc.memMinorFault, MetricKind.counter, (ms.minorFault : ℚ), [domainName]⟩,
   ⟨MDesc.memUnused, MetricKind.gauge, (ms.unused : ℚ) * 1024, [domainName]⟩,
   ⟨MDesc.memAvailable, MetricKind.gauge, (ms.available : ℚ) * 1024, [domainName]⟩,
   ⟨MDesc.memActualBalloon, MetricKind.gauge, (ms.actualBalloon : ℚ) * 1024, [domainName]⟩,
   ⟨MDesc.memRss, MetricKind.gauge, (ms.rss : ℚ) * 1024, [domainName]⟩,
   ⟨MDesc.memUsable, MetricKind.gauge, (ms.usable : ℚ) * 1024, [domainName]⟩,
   ⟨MDesc.memDiskCaches, MetricKind.gauge, (ms.diskCaches : ℚ) * 1024, [domainName]⟩,
   ⟨MDesc.memUsedPercent, MetricKind.gauge, usedPercent, [domainName]⟩]

/-- Complete result of collecting one domain. -/
structure DomainOut where
  metrics : List Metric
  logs : List String
  errMap : List String
  schedCalls : List SchedCall
  ioTuneCalls : List String
  outcome : COutcome

/-- Tail of `CollectDomain` after the VCPU sections: block loop, network
loop, memory statistics, here abstracted over the block-loop result `b`.
`ms`, `calls` and `lgs` carry what the earlier sections produced. An abnormal
block-loop outcome propagates; metrics sent before it remain on the channel. -/
def CollectDomainTailCore (env : DomainEnv) (domainName : String) (ms : List Metric)
    (calls : List SchedCall) (lgs : List String) (desc : DomainXML)
    (b : BlockLoopOut) : DomainOut :=
  match b.outcome with
  | COutcome.ok =>
    ⟨ms ++ b.metrics ++ collectNetLoop domainName desc.interfaces env.stat.net ++
       memoryMetrics domainName env.memoryStats,
     lgs ++ b.logs, b.errMap, calls, b.ioTuneCalls, COutcome.ok⟩
  | oc => ⟨ms ++ b.metrics, lgs ++ b.logs, b.errMap, calls, b.ioTuneCalls, oc⟩

/-- Tail of `CollectDomain` after the VCPU sections (see
`CollectDomainTailCore`). -/
def CollectDomainTail (env : DomainEnv) (errorsMap : List String) (domainName : String)
    (ms : List Metric) (calls : List SchedCall) (lgs : List String)
    (desc : DomainXML) : DomainOut :=
  CollectDomainTailCore env domainName ms calls lgs desc
    (collectBlockLoop env.blockIoTune domainName desc.disks errorsMap env.stat.block)

/-- Middle of `CollectDomain` starting at `GetUUIDString`: identity and
descriptor queries, domain-info metrics, the `GetVcpus` section (tolerating
`ERR_OPERATION_INVALID`) and the `stat.Vcpu` loop, then the tail. -/
def CollectDomainBody (henv : HostEnv) (env : DomainEnv) (errorsMap : List String)
    (domainName : String) (domainPid : Int) (domainVcpuPids : List Int) : DomainOut :=
  match env.getUUID with
  | Except.error e => ⟨[], [], errorsMap, [], [], COutcome.err e⟩
  | Except.ok domainUUID =>
  match env.getXMLDesc with
  | Except.error e => ⟨[], [], errorsMap, [], [], COutcome.err e⟩
  | Except.ok desc =>
  match env.getInfo with
  | Except.error e => ⟨[], [], errorsMap, [], [], COutcome.err e⟩
  | Except.ok info =>
  let headMs := domainInfoMetrics domainName domainUUID desc info
  match env.getVcpus with
  | Except.error e =>
    if isOpInvalidTolerated e then
      CollectDomainTail env errorsMap domainName headMs [] [] desc
    else ⟨headMs, [], errorsMap, [], [], COutcome.err e⟩
  | Except.ok vinfos =>
    let taskRoot := pathJoin (pathJoin henv.procFSPath (formatInt domainPid)) ("task")
    let r := collectVcpuStatLoop henv.readFile domainName taskRoot domainVcpuPids 0 env.stat.vcpu
    CollectDomainTail env errorsMap domainName
      (headMs ++ vcpuInfoMetrics domainName vinfos ++ r.metrics) r.schedCalls r.logs desc

/-- Models `CollectDomain`: name lookup, PID resolution, thread-id resolution
(tolerating `ERR_OPERATION_INVALID`, in which case `domainVcpuPids` keeps its
zero value `[]`), then the body. -/
def CollectDomain (henv : HostEnv) (env : DomainEnv) (errorsMap : List String) : DomainOut :=
  match env.getName with
  | Except.error e => ⟨[], [], errorsMap, [], [], COutcome.err e⟩
  | Except.ok domainName =>
    let domainPid := GetDomainPid henv domainName
    match GetDomainVcpuPids env.monitorCpus with
    | Except.error e =>
      if isOpInvalidTolerated e then
        CollectDomainBody henv env errorsMap domainName domainPid []
      else ⟨[], [], errorsMap, [], [], COutcome.err e⟩
    | Except.ok domainVcpuPids =>
      CollectDomainBody henv env errorsMap domainName domainPid domainVcpuPids

/-! ### Pools and the scrape orchestrator -/

/-- Result of `pool.GetInfo()`. -/
structure PoolInfoRec where
  capacity : Nat
  allocation : Nat
  available : Nat
deriving DecidableEq

/-- Per-pool oracle: handle identity plus the results of `Refresh`,
`GetName` and `GetInfo` (`refresh = none` means success). -/
structure PoolEnv where
  handleId : Nat
  refresh : Option GoErr
  getName : Except GoErr String
  getInfo : Except GoErr PoolInfoRec

/-- Models `CollectStoragePool`: refresh, read name and info, emit the three
pool gauges; any failure returns the error with nothing emitted. -/
def CollectStoragePool (p : PoolEnv) : List Metric × Option GoErr :=
  match p.refresh with
  | some e => ([], some e)
  | none =>
  match p.getName with
  | Except.error e => ([], some e)
  | Except.ok poolName =>
  match p.getInfo with
  | Except.error e => ([], some e)
  | Except.ok i =>
    ([⟨MDesc.poolCapacity, MetricKind.gauge, (i.capacity : ℚ), [poolName]⟩,
      ⟨MDesc.poolAllocation, MetricKind.gauge, (i.allocation : ℚ), [poolName]⟩,
      ⟨MDesc.poolAvailable, MetricKind.gauge, (i.available : ℚ), [poolName]⟩], none)

/-- The pool loop of `CollectFromLibvirt`: each pool is collected and then
freed; on the first error the loop returns immediately, so pools after the
failing one are never freed. Returns (metrics, freed handle ids, error). -/
def collectPools : List PoolEnv → List Metric × List Nat × Option GoErr
  | [] => ([], [], none)
  | p :: rest =>
    let r := CollectStoragePool p
    match r.2 with
    | some e => (r.1, [p.handleId], some e)
    | none =>
      let t := collectPools rest
      (r.1 ++ t.1, p.handleId :: t.2.1, t.2.2)

/-- Joint accumulators of the per-domain loop of `CollectFromLibvirt`. -/
structure DomainsLoopOut where
  metrics : List Metric
  logs : List String
  errMap : List String
  schedCalls : List SchedCall
  ioTuneCalls : List String
  outcome : COutcome

/-- The `for _, stat := range stats` loop: stops at the first abnormal
`CollectDomain` outcome, threading the process-wide `errorsMap`. -/
def collectDomainsLoop (henv : HostEnv) (errorsMap : List String) :
    List DomainEnv → DomainsLoopOut
  | [] => ⟨[], [], errorsMap, [], [], COutcome.ok⟩
  | d :: rest =>
    let o := CollectDomain henv d errorsMap
    match o.outcome with
    | COutcome.ok =>
      let r := collectDomainsLoop henv o.errMap rest
      ⟨o.metrics ++ r.metrics, o.logs ++ r.logs, r.errMap,
       o.schedCalls ++ r.schedCalls, o.ioTuneCalls ++ r.ioTuneCalls, r.outcome⟩
    | oc => ⟨o.metrics, o.logs, o.errMap, o.schedCalls, o.ioTuneCalls, oc⟩

/-- Scrape-level oracle: connection, the three version queries, the process
listing, the batched all-domain statistics and the active-pool listing. -/
structure ScrapeEnv where
  connect : Option GoErr
  getVersion : Except GoErr Nat
  getLibVersion : Except GoErr Nat
  libraryVersion : Except GoErr Nat
  processList : List Int
  procFSPath : String
  readFile : String → Option String
  allDomainStats : Except GoErr (List DomainEnv)
  listAllStoragePools : Except GoErr (List PoolEnv)

/-- Complete result of one `CollectFromLibvirt` run, with the handle ids
released by `Domain.Free` / `pool.Free` on the way out. -/
structure ScrapeOut where
  metrics : List Metric
  logs : List String
  errMap : List String
  schedCalls : List SchedCall
  ioTuneCalls : List String
  freedDomains : List Nat
  freedPools : List Nat
  outcome : COutcome

/-- Models `fmt.Sprintf("%d.%d.%d", v/1000000%1000, v/1000%1000, v%1000)`. -/
def formatVersion (v : Nat) : String :=
  formatNat (v / 1000000 % 1000) ++ (".") ++ formatNat (v / 1000 % 1000) ++ (".") ++
    formatNat (v % 1000)

/-- Models `CollectFromLibvirt`: connect, fetch the three versions, refresh
the process list, emit the versions metric, run the batched domain loop (the
deferred `stat.Domain.Free()` loop releases every batch handle on all exit
paths, including a panic unwind; on a failed batch call the slice is nil and
nothing was acquired), then list and collect pools. -/
def CollectFromLibvirt (env : ScrapeEnv) (errorsMap : List String) : ScrapeOut :=
  match env.connect with
  | some e => ⟨[], [], errorsMap, [], [], [], [], COutcome.err e⟩
  | none =>
  match env.getVersion with
  | Except.error e => ⟨[], [], errorsMap, [], [], [], [], COutcome.err e⟩
  | Except.ok hv =>
  match env.getLibVersion with
  | Except.error e => ⟨[], [], errorsMap, [], [], [], [], COutcome.err e⟩
  | Except.ok dv =>
  match env.libraryVersion with
  | Except.error e => ⟨[], [], errorsMap, [], [], [], [], COutcome.err e⟩
  | Except.ok lv =>
  let henv : HostEnv := ⟨env.procFSPath, env.processList, env.readFile⟩
  let versionM : Metric :=
    ⟨MDesc.versionsInfo, MetricKind.gauge, 1,
     [formatVersion hv, formatVersion dv, formatVersion lv]⟩
  match env.allDomainStats with
  | Except.error e => ⟨[versionM], [], errorsMap, [], [], [], [], COutcome.err e⟩
  | Except.ok ds =>
    let dl := collectDomainsLoop henv errorsMap ds
    let freedD := ds.map (fun d => d.handleId)
    match dl.outcome with
    | COutcome.ok =>
      match env.listAllStoragePools with
      | Except.error e =>
        ⟨versionM :: dl.metrics, dl.logs, dl.errMap, dl.schedCalls, dl.ioTuneCalls,
         freedD, [], COutcome.err e⟩
      | Except.ok ps =>
        let pr := collectPools ps
        match pr.2.2 with
        | some e =>
          ⟨versionM :: dl.metrics ++ pr.1, dl.logs, dl.errMap, dl.schedCalls,
           dl.ioTuneCalls, freedD, pr.2.1, COutcome.err e⟩
        | none =>
          ⟨versionM :: dl.metrics ++ pr.1, dl.logs, dl.errMap, dl.schedCalls,
           dl.ioTuneCalls, freedD, pr.2.1, COutcome.ok⟩
    | oc =>
      ⟨versionM :: dl.metrics, dl.logs, dl.errMap, dl.schedCalls, dl.ioTuneCalls,
       freedD, [], oc⟩

/-- Result of the exporter's `Collect` method; `outcome` is `panicked` when a
panic from `CollectDomain` unwinds through it (in which case no `up` gauge is
emitted), otherwise `ok`. -/
structure ExporterOut where
  metrics : List Metric
  logs : List String
  errMap : List String
  outcome : COutcome

/-- Models `LibvirtExporter.Collect`: run a scrape, then emit the `up` gauge
with value 1 on success and 0 on a returned error (logging it). -/
def Collect (env : ScrapeEnv) (errorsMap : List String) : ExporterOut :=
  let o := CollectFromLibvirt env errorsMap
  match o.outcome with
  | COutcome.ok =>
    ⟨o.metrics ++ [⟨MDesc.up, MetricKind.gauge, 1, []⟩], o.logs, o.errMap, COutcome.ok⟩
  | COutcome.err _ =>
    ⟨o.metrics ++ [⟨MDesc.up, MetricKind.gauge, 0, []⟩],
     o.logs ++ [("failed to scrape metrics")], o.errMap, COutcome.ok⟩
  | COutcome.panicked => ⟨o.metrics, o.logs, o.errMap, COutcome.panicked⟩

/-! ### Decimal formatting is injective -/

/-- Value of a little-endian digit list. -/
def undigits : List Nat → Nat
  | [] => 0
  | d :: ds => d + 10 * undigits ds

theorem undigits_digitsRevAux (fuel : Nat) :
    ∀ n : Nat, n ≤ fuel → undigits (digitsRevAux fuel n) = n := by
  induction fuel with
  | zero =>
    intro n hn
    interval_cases n
    simp [digitsRevAux, undigits]
  | succ f ih =>
    intro n hn
    match n with
    | 0 => simp [digitsRevAux, undigits]
    | m + 1 =>
      have hdiv : (m + 1) / 10 ≤ f := by
        have h1 : (m + 1) / 10 < m + 1 := Nat.div_lt_self (by omega) (by omega)
        omega
      simp only [digitsRevAux, undigits, ih _ hdiv]
      omega

theorem undigits_natDigitsRev (n : Nat) : undigits (natDigitsRev n) = n :=
  undigits_digitsRevAux n n (Nat.le_refl n)

theorem digitsRevAux_lt_ten (fuel : Nat) :
    ∀ n d : Nat, d ∈ digitsRevAux fuel n → d < 10 := by
  induction fuel with
  | zero => intro n d hd; simp [digitsRevAux] at hd
  | succ f ih =>
    intro n d hd
    match n with
    | 0 => simp [digitsRevAux] at hd
    | m + 1 =>
      simp only [digitsRevAux, List.mem_cons] at hd
      rcases hd with h | h
      · subst h; exact Nat.mod_lt _ (by omega)
      · exact ih _ _ h

theorem natDigitsRev_lt_ten {n d : Nat} (hd : d ∈ natDigitsRev n) : d < 10 :=
  digitsRevAux_lt_ten n n d hd

theorem digitChr_decode {d : Nat} (hd : d < 10) : (digitChr d).toNat - 48 = d := by
  interval_cases d <;> decide

/-- Decoder inverting `formatNat`. -/
def decodeDigits (l : List Char) : Nat :=
  undigits ((l.map (fun c => c.toNat - 48)).reverse)

theorem decodeDigits_formatNat (n : Nat) : decodeDigits (formatNat n).data = n := by
  by_cases h : n = 0
  · subst h; decide
  · have hdata : (formatNat n).data = (natDigitsRev n).reverse.map digitChr := by
      simp [formatNat, h]
    rw [hdata]
    unfold decodeDigits
    rw [List.map_map]
    have hmap : ((natDigitsRev n).reverse.map ((fun c => c.toNat - 48) ∘ digitChr)) =
        (natDigitsRev n).reverse.map id := by
      apply List.map_congr_left
      intro d hd
      have : d < 10 := natDigitsRev_lt_ten (List.mem_reverse.mp hd)
      simpa using digitChr_decode this
    rw [hmap, List.map_id, List.reverse_reverse, undigits_natDigitsRev]

theorem formatNat_inj {a b : Nat} (h : formatNat a = formatNat b) : a = b := by
  have := congrArg (fun s : String => decodeDigits s.data) h
  simpa [decodeDigits_formatNat] using this

theorem formatNat_ne {a b : Nat} (h : a ≠ b) : formatNat a ≠ formatNat b :=
  fun he => h (formatNat_inj he)

/-! ### Small list helpers -/

theorem mem_ite_singleton {α : Type} {c : Prop} [Decidable c] {x m : α}
    (h : m ∈ (if c then [x] else [])) : m = x := by
  by_cases hc : c <;> simp [hc] at h
  exact h

/-! ### Descriptor sets of the emission sections -/

/-- Descriptors of the domain-info section. -/
def infoDescs : List MDesc :=
  [MDesc.infoMeta, MDesc.infoMaxMem, MDesc.infoMemUsage, MDesc.infoNrVirtCpu,
   MDesc.infoCpuTime, MDesc.infoVState]

/-- Descriptors of the `GetVcpus` section. -/
def vcpuInfoDescs : List MDesc := [MDesc.vcpuState, MDesc.vcpuTime, MDesc.vcpuCpu]

/-- Descriptors of the block-device section (metadata, counters and the
I/O-tuning limits). -/
def blockDescs : List MDesc :=
  [MDesc.blockMeta, MDesc.blockRdBytes, MDesc.blockRdReq, MDesc.blockRdTime,
   MDesc.blockWrBytes, MDesc.blockWrReq, MDesc.blockWrTime, MDesc.blockFlReq,
   MDesc.blockFlTime, MDesc.blockAllocation, MDesc.blockCapacity, MDesc.blockPhysical,
   MDesc.tuneTotalBytesSec, MDesc.tuneReadBytesSec, MDesc.tuneWriteBytesSec,
   MDesc.tuneTotalIopsSec, MDesc.tuneReadIopsSec, MDesc.tuneWriteIopsSec,
   MDesc.tuneTotalBytesSecMax, MDesc.tuneReadBytesSecMax, MDesc.tuneWriteBytesSecMax,
   MDesc.tuneTotalIopsSecMax, MDesc.tuneReadIopsSecMax, MDesc.tuneWriteIopsSecMax,
   MDesc.tuneTotalBytesSecMaxLength, MDesc.tuneReadBytesSecMaxLength,
   MDesc.tuneWriteBytesSecMaxLength, MDesc.tuneTotalIopsSecMaxLength,
   MDesc.tuneReadIopsSecMaxLength, MDesc.tuneWriteIopsSecMaxLength,
   MDesc.tuneSizeIopsSec]

/-- Descriptors of the network-interface section. -/
def ifaceDescs : List MDesc :=
  [MDesc.ifaceMeta, MDesc.ifaceRxBytes, MDesc.ifaceRxPackets, MDesc.ifaceRxErrs,
   MDesc.ifaceRxDrop, MDesc.ifaceTxBytes, MDesc.ifaceTxPackets, MDesc.ifaceTxErrs,
   MDesc.ifaceTxDrop]

/-- Descriptors of the memory-statistics section. -/
def memDescs : List MDesc :=
  [MDesc.memMajorFault, MDesc.memMinorFault, MDesc.memUnused, MDesc.memAvailable,
   MDesc.memActualBalloon, MDesc.memRss, MDesc.memUsable, MDesc.memDiskCaches,
   MDesc.memUsedPercent]

/-- The filter selecting the delay metric of VCPU `i` of domain
`domainName`. -/
def isDelayAt (domainName : String) (i : Nat) (m : Metric) : Bool :=
  m.desc == MDesc.vcpuDelay && m.labels == [domainName, formatNat i]

theorem domainInfoMetrics_desc {a b : String} {d : DomainXML} {info : DomainInfo}
    {m : Metric} (hm : m ∈ domainInfoMetrics a b d info) : m.desc ∈ infoDescs := by
  simp only [domainInfoMetrics, List.mem_cons, List.mem_singleton] at hm
  rcases hm with rfl | rfl | rfl | rfl | rfl | rfl | h
  · simp [infoDescs]
  · simp [infoDescs]
  · simp [infoDescs]
  · simp [infoDescs]
  · simp [infoDescs]
  · simp [infoDescs]
  · simp at h

theorem vcpuInfoMetrics_desc {n : String} {l : List VcpuInfo} {m : Metric}
    (hm : m ∈ vcpuInfoMetrics n l) : m.desc ∈ vcpuInfoDescs := by
  induction l with
  | nil => simp [vcpuInfoMetrics] at hm
  | cons v rest ih =>
    simp only [vcpuInfoMetrics, List.mem_cons] at hm
    rcases hm with rfl | rfl | rfl | h
    · simp [vcpuInfoDescs]
    · simp [vcpuInfoDescs]
    · simp [vcpuInfoDescs]
    · exact ih h

theorem memoryMetrics_desc {n : String} {r : Except GoErr (List DomainMemoryStat)}
    {m : Metric} (hm : m ∈ memoryMetrics n r) : m.desc ∈ memDescs := by
  simp only [memoryMetrics, List.mem_cons, List.mem_singleton] at hm
  rcases hm with rfl | rfl | rfl | rfl | rfl | rfl | rfl | rfl | rfl | h
  all_goals try simp [memDescs]
  simp at h

theorem ifaceCounterMetrics_props {n : String} {i : NetStat} {m : Metric}
    (hm : m ∈ ifaceCounterMetrics n i) : m.desc ∈ ifaceDescs := by
  simp only [ifaceCounterMetrics, List.mem_append] at hm
  rcases hm with ((((((h | h) | h) | h) | h) | h) | h) | h <;>
    (have hx := mem_ite_singleton h; subst hx; simp [ifaceDescs])

theorem collectNetLoop_desc {n : String} {xs : List IfaceXML} {l : List NetStat}
    {m : Metric} (hm : m ∈ collectNetLoop n xs l) : m.desc ∈ ifaceDescs := by
  induction l with
  | nil => simp [collectNetLoop] at hm
  | cons i rest ih =>
    simp only [collectNetLoop, List.mem_append] at hm
    rcases hm with (h | h) | h
    · have := mem_ite_singleton h; subst this; simp [ifaceDescs]
    · exact ifaceCounterMetrics_props h
    · exact ih h

theorem diskCounterMetrics_props {n : String} {d : BlockStat} {m : Metric}
    (hm : m ∈ diskCounterMetrics n d) :
    m.desc ∈ blockDescs ∧ m.labels = [n, d.name] := by
  simp only [diskCounterMetrics, List.mem_append] at hm
  rcases hm with ((((((((((h | h) | h) | h) | h) | h) | h) | h) | h) | h) | h) <;>
    (have hx := mem_ite_singleton h; subst hx; exact ⟨by simp [blockDescs], rfl⟩)

theorem ioTuneMetrics_props {n dev : String} {p : BlockIoTuneParams} {m : Metric}
    (hm : m ∈ ioTuneMetrics n dev p) :
    m.desc ∈ blockDescs ∧ m.labels = [n, dev] := by
  simp only [ioTuneMetrics, List.mem_append] at hm
  rcases hm with ((((((((((((((((((h | h) | h) | h) | h) | h) | h) | h) | h) | h) | h)
    | h) | h) | h) | h) | h) | h) | h) | h) <;>
    (have hx := mem_ite_singleton h; subst hx; exact ⟨by simp [blockDescs], rfl⟩)

/-! ### Block-loop characterization -/

theorem collectBlockLoop_metrics {ioTune : String → Except GoErr BlockIoTuneParams}
    {nm : String} {xmlDisks : List DiskXML} :
    ∀ (disks : List BlockStat) (em : List String) (m : Metric),
      m ∈ (collectBlockLoop ioTune nm xmlDisks em disks).metrics →
      m.desc ∈ blockDescs ∧
        ∃ d ∈ disks, ¬(d.name = "hdc" ∨ d.name = "hda") ∧ m.labels.get? 1 = some d.name := by
  intro disks
  induction disks with
  | nil => intro em m hm; simp [collectBlockLoop] at hm
  | cons d rest ih =>
    intro em m hm
    by_cases hskip : d.name = "hdc" ∨ d.name = "hda"
    · rw [collectBlockLoop, if_pos hskip] at hm
      obtain ⟨h1, dd, hdd, h2, h3⟩ := ih em m hm
      exact ⟨h1, dd, List.mem_cons_of_mem _ hdd, h2, h3⟩
    · cases hfind : xmlDisks.find? (fun dev => dev.targetDevice == d.name) with
      | none =>
        rw [collectBlockLoop, if_neg hskip] at hm
        simp only [hfind] at hm
        simp at hm
      | some dev =>
        cases hio : ioTune d.name with
        | error e =>
          cases habort : (blockIoTuneErrHandle e em).2.2 with
          | some e2 =>
            rw [collectBlockLoop, if_neg hskip] at hm
            simp only [hfind, hio, habort, List.mem_cons] at hm
            rcases hm with rfl | hm
            · exact ⟨by simp [blockDescs], d, List.mem_cons_self _ _, hskip, rfl⟩
            · obtain ⟨h1, h2⟩ := diskCounterMetrics_props hm
              exact ⟨h1, d, List.mem_cons_self _ _, hskip, by rw [h2]; rfl⟩
          | none =>
            rw [collectBlockLoop, if_neg hskip] at hm
            simp only [hfind, hio, habort, List.mem_cons, List.mem_append] at hm
            rcases hm with (rfl | hm) | hm
            · exact ⟨by simp [blockDescs], d, List.mem_cons_self _ _, hskip, rfl⟩
            · obtain ⟨h1, h2⟩ := diskCounterMetrics_props hm
              exact ⟨h1, d, List.mem_cons_self _ _, hskip, by rw [h2]; rfl⟩
            · obtain ⟨h1, dd, hdd, h2, h3⟩ := ih _ m hm
              exact ⟨h1, dd, List.mem_cons_of_mem _ hdd, h2, h3⟩
        | ok p =>
          rw [collectBlockLoop, if_neg hskip] at hm
          simp only [hfind, hio, List.mem_cons, List.mem_append] at hm
          rcases hm with ((rfl | hm) | hm) | hm
          · exact ⟨by simp [blockDescs], d, List.mem_cons_self _ _, hskip, rfl⟩
          · obtain ⟨h1, h2⟩ := diskCounterMetrics_props hm
            exact ⟨h1, d, List.mem_cons_self _ _, hskip, by rw [h2]; rfl⟩
          · obtain ⟨h1, h2⟩ := ioTuneMetrics_props hm
            exact ⟨h1, d, List.mem_cons_self _ _, hskip, by rw [h2]; rfl⟩
          · obtain ⟨h1, dd, hdd, h2, h3⟩ := ih em m hm
            exact ⟨h1, dd, List.mem_cons_of_mem _ hdd, h2, h3⟩

theorem collectBlockLoop_calls {ioTune : String → Except GoErr BlockIoTuneParams}
    {nm : String} {xmlDisks : List DiskXML} :
    ∀ (disks : List BlockStat) (em : List String) (s : String),
      s ∈ (collectBlockLoop ioTune nm xmlDisks em disks).ioTuneCalls →
      ∃ d ∈ disks, ¬(d.name = "hdc" ∨ d.name = "hda") ∧ s = d.name := by
  intro disks
  induction disks with
  | nil => intro em s hs; simp [collectBlockLoop] at hs
  | cons d rest ih =>
    intro em s hs
    by_cases hskip : d.name = "hdc" ∨ d.name = "hda"
    · rw [collectBlockLoop, if_pos hskip] at hs
      obtain ⟨dd, hdd, h2, h3⟩ := ih em s hs
      exact ⟨dd, List.mem_cons_of_mem _ hdd, h2, h3⟩
    · cases hfind : xmlDisks.find? (fun dev => dev.targetDevice == d.name) with
      | none =>
        rw [collectBlockLoop, if_neg hskip] at hs
        simp only [hfind] at hs
        simp at hs
      | some dev =>
        cases hio : ioTune d.name with
        | error e =>
          cases habort : (blockIoTuneErrHandle e em).2.2 with
          | some e2 =>
            rw [collectBlockLoop, if_neg hskip] at hs
            simp only [hfind, hio, habort, List.mem_singleton] at hs
            exact ⟨d, List.mem_cons_self _ _, hskip, hs⟩
          | none =>
            rw [collectBlockLoop, if_neg hskip] at hs
            simp only [hfind, hio, habort, List.mem_cons] at hs
            rcases hs with rfl | hs
            · exact ⟨d, List.mem_cons_self _ _, hskip, rfl⟩
            · obtain ⟨dd, hdd, h2, h3⟩ := ih _ s hs
              exact ⟨dd, List.mem_cons_of_mem _ hdd, h2, h3⟩
        | ok p =>
          rw [collectBlockLoop, if_neg hskip] at hs
          simp only [hfind, hio, List.mem_cons] at hs
          rcases hs with rfl | hs
          · exact ⟨d, List.mem_cons_self _ _, hskip, rfl⟩
          · obtain ⟨dd, hdd, h2, h3⟩ := ih em s hs
            exact ⟨dd, List.mem_cons_of_mem _ hdd, h2, h3⟩

/-! ### VCPU-loop characterization -/

theorem vcpuDelayStep_metric {readFile : String → Option String} {dn tr : String}
    {pids : List Int} {i : Nat} {v : VcpuStat} {m : Metric}
    (hm : m ∈ (vcpuDelayStep readFile dn tr pids i v).1) :
    m.desc = MDesc.vcpuDelay ∧ m.labels = [dn, formatNat i] := by
  unfold vcpuDelayStep at hm
  split at hm
  · simp at hm; subst hm; exact ⟨rfl, rfl⟩
  · split at hm
    · simp at hm
    · dsimp only at hm
      split at hm
      · simp at hm
      · simp at hm; subst hm; exact ⟨rfl, rfl⟩

theorem vcpuDelayStep_call {readFile : String → Option String} {dn tr : String}
    {pids : List Int} {i : Nat} {v : VcpuStat} {c : SchedCall}
    (hc : c ∈ (vcpuDelayStep readFile dn tr pids i v).2.1) :
    v.delaySet = false ∧ c.idx = i := by
  unfold vcpuDelayStep at hc
  split at hc
  case isTrue => simp at hc
  case isFalse hd =>
    refine ⟨by simpa using hd, ?_⟩
    split at hc
    · simp at hc
    · dsimp only at hc
      split at hc
      · simp at hc; subst hc; rfl
      · simp at hc; subst hc; rfl

theorem vcpuDelayStep_filter_self {readFile : String → Option String} {dn tr : String}
    {pids : List Int} {i : Nat} {v : VcpuStat} :
    (vcpuDelayStep readFile dn tr pids i v).1.filter (isDelayAt dn i) =
      (vcpuDelayStep readFile dn tr pids i v).1 := by
  rw [List.filter_eq_self]
  intro m hm
  obtain ⟨h1, h2⟩ := vcpuDelayStep_metric hm
  simp [isDelayAt, h1, h2]

theorem vcpuWaitStep_filter_nil {dn : String} {i j : Nat} {v : VcpuStat}
    {nm : String} :
    (vcpuWaitStep nm i v).filter (isDelayAt dn j) = [] := by
  rw [List.filter_eq_nil_iff]
  intro m hm
  have := mem_ite_singleton hm
  subst this
  simp [isDelayAt]

theorem collectVcpuStatLoop_labels {readFile : String → Option String} {dn tr : String}
    {pids : List Int} :
    ∀ (vs : List VcpuStat) (i : Nat) (m : Metric),
      m ∈ (collectVcpuStatLoop readFile dn tr pids i vs).metrics →
      ∃ k, m.labels = [dn, formatNat (i + k)] := by
  intro vs
  induction vs with
  | nil => intro i m hm; simp [collectVcpuStatLoop] at hm
  | cons v rest ih =>
    intro i m hm
    rw [collectVcpuStatLoop] at hm
    simp only [List.mem_append] at hm
    rcases hm with (hm | hm) | hm
    · have := mem_ite_singleton hm
      subst this
      exact ⟨0, rfl⟩
    · obtain ⟨_, h2⟩ := vcpuDelayStep_metric hm
      exact ⟨0, h2⟩
    · obtain ⟨k, hk⟩ := ih (i + 1) m hm
      refine ⟨k + 1, ?_⟩
      rw [hk]
      have : i + 1 + k = i + (k + 1) := by omega
      rw [this]

theorem collectVcpuStatLoop_filter {readFile : String → Option String} {dn tr : String}
    {pids : List Int} :
    ∀ (vs : List VcpuStat) (i j : Nat) (v : VcpuStat), vs.get? j = some v →
      (collectVcpuStatLoop readFile dn tr pids i vs).metrics.filter (isDelayAt dn (i + j)) =
        (vcpuDelayStep readFile dn tr pids (i + j) v).1 := by
  intro vs
  induction vs with
  | nil => intro i j v hj; simp at hj
  | cons v0 rest ih =>
    intro i j v hj
    rw [collectVcpuStatLoop]
    simp only [List.filter_append]
    match j with
    | 0 =>
      have hv : v0 = v := by simpa using hj
      subst hv
      rw [Nat.add_zero]
      rw [vcpuWaitStep_filter_nil, vcpuDelayStep_filter_self]
      have hrec : (collectVcpuStatLoop readFile dn tr pids (i + 1) rest).metrics.filter
          (isDelayAt dn i) = [] := by
        rw [List.filter_eq_nil_iff]
        intro m hm
        obtain ⟨k, hk⟩ := collectVcpuStatLoop_labels rest (i + 1) m hm
        simp [isDelayAt, hk]
        intro _
        exact formatNat_ne (by omega)
      rw [hrec, List.append_nil, List.nil_append]
    | k + 1 =>
      have hrest : rest.get? k = some v := by simpa using hj
      have hwait : (vcpuWaitStep dn i v0).filter (isDelayAt dn (i + (k + 1))) = [] :=
        vcpuWaitStep_filter_nil
      have hstep : (vcpuDelayStep readFile dn tr pids i v0).1.filter
          (isDelayAt dn (i + (k + 1))) = [] := by
        rw [List.filter_eq_nil_iff]
        intro m hm
        obtain ⟨_, h2⟩ := vcpuDelayStep_metric hm
        simp [isDelayAt, h2]
        intro _
        exact formatNat_ne (by omega)
      have harith : i + (k + 1) = (i + 1) + k := by omega
      rw [hwait, hstep, List.nil_append, List.nil_append, harith,
        ih (i + 1) k v hrest]

theorem collectVcpuStatLoop_calls_mem {readFile : String → Option String} {dn tr : String}
    {pids : List Int} :
    ∀ (vs : List VcpuStat) (i : Nat) (c : SchedCall),
      c ∈ (collectVcpuStatLoop readFile dn tr pids i vs).schedCalls →
      ∃ k v, vs.get? k = some v ∧ v.delaySet = false ∧ c.idx = i + k := by
  intro vs
  induction vs with
  | nil => intro i c hc; simp [collectVcpuStatLoop] at hc
  | cons v0 rest ih =>
    intro i c hc
    rw [collectVcpuStatLoop] at hc
    simp only [List.mem_append] at hc
    rcases hc with hc | hc
    · obtain ⟨h1, h2⟩ := vcpuDelayStep_call hc
      exact ⟨0, v0, rfl, h1, by omega⟩
    · obtain ⟨k, v, hk, h1, h2⟩ := ih (i + 1) c hc
      exact ⟨k + 1, v, by simpa using hk, h1, by omega⟩

theorem collectVcpuStatLoop_calls_sub {readFile : String → Option String} {dn tr : String}
    {pids : List Int} :
    ∀ (vs : List VcpuStat) (i j : Nat) (v : VcpuStat), vs.get? j = some v →
      ∀ c ∈ (vcpuDelayStep readFile dn tr pids (i + j) v).2.1,
        c ∈ (collectVcpuStatLoop readFile dn tr pids i vs).schedCalls := by
  intro vs
  induction vs with
  | nil => intro i j v hj; simp at hj
  | cons v0 rest ih =>
    intro i j v hj c hc
    rw [collectVcpuStatLoop]
    simp only [List.mem_append]
    match j with
    | 0 =>
      have hv : v0 = v := by simpa using hj
      subst hv
      rw [Nat.add_zero] at hc
      exact Or.inl hc
    | k + 1 =>
      have hrest : rest.get? k = some v := by simpa using hj
      have harith : i + (k + 1) = (i + 1) + k := by omega
      rw [harith] at hc
      exact Or.inr (ih (i + 1) k v hrest c hc)

/-! ### Unfolding equations for `vcpuDelayStep` -/

theorem vcpuDelayStep_of_delaySet {readFile : String → Option String} {dn tr : String}
    {pids : List Int} {i : Nat} {v : VcpuStat} (hd : v.delaySet = true) :
    vcpuDelayStep readFile dn tr pids i v =
      ([⟨MDesc.vcpuDelay, MetricKind.counter, (v.delay : ℚ) / 1000000000,
         [dn, formatNat i]⟩], [], []) := by
  unfold vcpuDelayStep
  rw [if_pos hd]

theorem vcpuDelayStep_of_oob {readFile : String → Option String} {dn tr : String}
    {pids : List Int} {i : Nat} {v : VcpuStat} (hd : v.delaySet = false)
    (h : pids.length ≤ i) :
    vcpuDelayStep readFile dn tr pids i v = ([], [], []) := by
  unfold vcpuDelayStep
  rw [if_neg (by simp [hd]), dif_pos h]

theorem vcpuDelayStep_of_none {readFile : String → Option String} {dn tr : String}
    {pids : List Int} {i : Nat} {v : VcpuStat} (hd : v.delaySet = false)
    (h : i < pids.length)
    (hs : GetProcPIDSchedStat readFile tr (pids.get ⟨i, h⟩) = none) :
    vcpuDelayStep readFile dn tr pids i v =
      ([], [⟨i, tr, pids.get ⟨i, h⟩⟩], [("unable to collect vcpu delay metric")]) := by
  unfold vcpuDelayStep
  rw [if_neg (by simp [hd]), dif_neg (by omega)]
  dsimp only
  rw [hs]

theorem vcpuDelayStep_of_some {readFile : String → Option String} {dn tr : String}
    {pids : List Int} {i : Nat} {v : VcpuStat} (hd : v.delaySet = false)
    (h : i < pids.length) (s : ProcPIDSchedStat)
    (hs : GetProcPIDSchedStat readFile tr (pids.get ⟨i, h⟩) = some s) :
    vcpuDelayStep readFile dn tr pids i v =
      ([⟨MDesc.vcpuDelay, MetricKind.counter, (s.runqueue : ℚ) / 1000000000,
         [dn, formatNat i]⟩], [⟨i, tr, pids.get ⟨i, h⟩⟩], []) := by
  unfold vcpuDelayStep
  rw [if_neg (by simp [hd]), dif_neg (by omega)]
  dsimp only
  rw [hs]

theorem collectVcpuStatLoop_desc {readFile : String → Option String} {dn tr : String}
    {pids : List Int} :
    ∀ (vs : List VcpuStat) (i : Nat) (m : Metric),
      m ∈ (collectVcpuStatLoop readFile dn tr pids i vs).metrics →
      m.desc = MDesc.vcpuWait ∨ m.desc = MDesc.vcpuDelay := by
  intro vs
  induction vs with
  | nil => intro i m hm; simp [collectVcpuStatLoop] at hm
  | cons v rest ih =>
    intro i m hm
    rw [collectVcpuStatLoop] at hm
    simp only [List.mem_append] at hm
    rcases hm with (hm | hm) | hm
    · have := mem_ite_singleton hm; subst this; exact Or.inl rfl
    · exact Or.inr (vcpuDelayStep_metric hm).1
    · exact ih (i + 1) m hm

/-! ### Generic filter helpers -/

theorem isDelayAt_false_of_desc {dn : String} {j : Nat} {m : Metric}
    (h : m.desc ≠ MDesc.vcpuDelay) : isDelayAt dn j m = false := by
  unfold isDelayAt
  rw [beq_eq_false_iff_ne.mpr h, Bool.false_and]

theorem filter_delay_nil_of_descs {dn : String} {j : Nat} {l : List Metric}
    (h : ∀ m ∈ l, m.desc ≠ MDesc.vcpuDelay) : l.filter (isDelayAt dn j) = [] := by
  rw [List.filter_eq_nil_iff]
  intro m hm
  simp [isDelayAt_false_of_desc (h m hm)]

theorem filter_desc_nil {l : List Metric} {L : List MDesc} {d : MDesc}
    (hl : ∀ m ∈ l, m.desc ∈ L) (hd : d ∉ L) :
    l.filter (fun m => m.desc == d) = [] := by
  rw [List.filter_eq_nil_iff]
  intro m hm
  simp only [beq_iff_eq]
  intro he
  exact hd (he ▸ hl m hm)

/-! ### `CollectDomainTail` structure -/

theorem CollectDomainTail_schedCalls (env : DomainEnv) (em : List String) (dn : String)
    (ms : List Metric) (calls : List SchedCall) (lgs : List String) (desc : DomainXML) :
    (CollectDomainTail env em dn ms calls lgs desc).schedCalls = calls := by
  unfold CollectDomainTail CollectDomainTailCore
  split <;> rfl

theorem CollectDomainTail_filter_delay (env : DomainEnv) (em : List String) (dn : String)
    (ms : List Metric) (calls : List SchedCall) (lgs : List String) (desc : DomainXML)
    (dn2 : String) (j : Nat) :
    (CollectDomainTail env em dn ms calls lgs desc).metrics.filter (isDelayAt dn2 j) =
      ms.filter (isDelayAt dn2 j) := by
  have hblock : (collectBlockLoop env.blockIoTune dn desc.disks em env.stat.block).metrics.filter
      (isDelayAt dn2 j) = [] := by
    apply filter_delay_nil_of_descs
    intro m hm
    have h1 := (collectBlockLoop_metrics _ _ _ hm).1
    intro he
    rw [he] at h1
    exact absurd h1 (by decide)
  unfold CollectDomainTail CollectDomainTailCore
  split
  · rw [List.filter_append, List.filter_append, List.filter_append, hblock]
    have hnet : (collectNetLoop dn desc.interfaces env.stat.net).filter (isDelayAt dn2 j) = [] := by
      apply filter_delay_nil_of_descs
      intro m hm
      have h1 := collectNetLoop_desc hm
      intro he
      rw [he] at h1
      exact absurd h1 (by decide)
    have hmem : (memoryMetrics dn env.memoryStats).filter (isDelayAt dn2 j) = [] := by
      apply filter_delay_nil_of_descs
      intro m hm
      have h1 := memoryMetrics_desc hm
      intro he
      rw [he] at h1
      exact absurd h1 (by decide)
    rw [hnet, hmem, List.append_nil, List.append_nil, List.append_nil]
  · rw [List.filter_append, hblock, List.append_nil]

theorem CollectDomainTail_ok_metrics (env : DomainEnv) (em : List String) (dn : String)
    (ms : List Metric) (calls : List SchedCall) (lgs : List String) (desc : DomainXML)
    (hb : (collectBlockLoop env.blockIoTune dn desc.disks em env.stat.block).outcome =
      COutcome.ok) :
    (CollectDomainTail env em dn ms calls lgs desc).metrics =
      ms ++ (collectBlockLoop env.blockIoTune dn desc.disks em env.stat.block).metrics ++
        collectNetLoop dn desc.interfaces env.stat.net ++
        memoryMetrics dn env.memoryStats := by
  unfold CollectDomainTail CollectDomainTailCore
  rw [hb]

theorem CollectDomainTail_outcome_ok (env : DomainEnv) (em : List String) (dn : String)
    (ms : List Metric) (calls : List SchedCall) (lgs : List String) (desc : DomainXML)
    (hb : (collectBlockLoop env.blockIoTune dn desc.disks em env.stat.block).outcome =
      COutcome.ok) :
    (CollectDomainTail env em dn ms calls lgs desc).outcome = COutcome.ok := by
  unfold CollectDomainTail CollectDomainTailCore
  rw [hb]

/-! ### `CollectDomain` on the successful VCPU path -/

/-- The `filepath.Join(procFSPath, itoa(domainPid), "task")` argument passed
to the estimator for a given domain. -/
def domainTaskRoot (henv : HostEnv) (dn : String) : String :=
  pathJoin (pathJoin henv.procFSPath (formatInt (GetDomainPid henv dn))) ("task")

theorem CollectDomain_delay_char (henv : HostEnv) (env : DomainEnv) (em : List String)
    (dn : String) (pids : List Int) (uuid : String) (desc : DomainXML)
    (info : DomainInfo) (vinfos : List VcpuInfo)
    (hname : env.getName = Except.ok dn)
    (hpids : GetDomainVcpuPids env.monitorCpus = Except.ok pids)
    (huuid : env.getUUID = Except.ok uuid)
    (hxml : env.getXMLDesc = Except.ok desc)
    (hinfo : env.getInfo = Except.ok info)
    (hvcpus : env.getVcpus = Except.ok vinfos)
    {j : Nat} {v : VcpuStat} (hj : env.stat.vcpu.get? j = some v) :
    (CollectDomain henv env em).metrics.filter (isDelayAt dn j) =
      (vcpuDelayStep henv.readFile dn (domainTaskRoot henv dn) pids j v).1 ∧
    (CollectDomain henv env em).schedCalls =
      (collectVcpuStatLoop henv.readFile dn (domainTaskRoot henv dn) pids 0
        env.stat.vcpu).schedCalls := by
  have hbody : CollectDomain henv env em =
      CollectDomainTail env em dn
        (domainInfoMetrics dn uuid desc info ++ vcpuInfoMetrics dn vinfos ++
          (collectVcpuStatLoop henv.readFile dn (domainTaskRoot henv dn) pids 0
            env.stat.vcpu).metrics)
        (collectVcpuStatLoop henv.readFile dn (domainTaskRoot henv dn) pids 0
          env.stat.vcpu).schedCalls
        (collectVcpuStatLoop henv.readFile dn (domainTaskRoot henv dn) pids 0
          env.stat.vcpu).logs desc := by
    unfold CollectDomain CollectDomainBody domainTaskRoot
    simp only [hname, hpids, huuid, hxml, hinfo, hvcpus]
  constructor
  · rw [hbody, CollectDomainTail_filter_delay]
    rw [List.filter_append, List.filter_append]
    have h1 : (domainInfoMetrics dn uuid desc info).filter (isDelayAt dn j) = [] := by
      apply filter_delay_nil_of_descs
      intro m hm
      have := domainInfoMetrics_desc hm
      intro he
      rw [he] at this
      exact absurd this (by decide)
    have h2 : (vcpuInfoMetrics dn vinfos).filter (isDelayAt dn j) = [] := by
      apply filter_delay_nil_of_descs
      intro m hm
      have := vcpuInfoMetrics_desc hm
      intro he
      rw [he] at this
      exact absurd this (by decide)
    rw [h1, h2, List.nil_append, List.nil_append]
    have := @collectVcpuStatLoop_filter henv.readFile dn (domainTaskRoot henv dn)
      pids env.stat.vcpu 0 j v hj
    rwa [Nat.zero_add] at this
  · rw [hbody, CollectDomainTail_schedCalls]

/-! ### `GetDomainPid` default value -/

theorem GetDomainPidAux_eq_zero {readFile : String → Option String} {procPath dn : String} :
    ∀ ps : List Int,
      (∀ p ∈ ps, GetCmdLine readFile procPath p = "" ∨
        strContains (GetCmdLine readFile procPath p) dn = false) →
      GetDomainPidAux readFile procPath dn ps = 0 := by
  intro ps
  induction ps with
  | nil => intro _; rfl
  | cons p rest ih =>
    intro h
    unfold GetDomainPidAux
    rw [if_neg]
    · exact ih (fun q hq => h q (List.mem_cons_of_mem _ hq))
    · rcases h p (List.mem_cons_self _ _) with h1 | h1 <;> simp [h1]

theorem formatInt_zero : formatInt 0 = "0" := by decide

instance {e a : Type} [DecidableEq e] [DecidableEq a] : DecidableEq (Except e a) :=
  fun x y =>
  match x, y with
  | Except.ok u, Except.ok w =>
    if h : u = w then isTrue (by rw [h]) else isFalse (fun he => h (by injection he))
  | Except.error u, Except.error w =>
    if h : u = w then isTrue (by rw [h]) else isFalse (fun he => h (by injection he))
  | Except.ok _, Except.error _ => isFalse (fun he => Except.noConfusion he)
  | Except.error _, Except.ok _ => isFalse (fun he => Except.noConfusion he)

/-! ### Concrete environments for witnesses and counterexamples -/

/-- A host with an empty process table and an unreadable procfs. -/
def hostW : HostEnv := ⟨("/proc"), [], fun _ => none⟩

/-- A host whose procfs carries one schedstat file for thread 150 under the
task root of PID 0. -/
def hostW2 : HostEnv :=
  ⟨("/proc"), [],
   fun p => if p = "/proc/0/task/150/schedstat" then some ("123 5000000000 77") else none⟩

/-- An empty decoded domain descriptor. -/
def xmlW : DomainXML := ⟨[], [], "", "", "", "", "", "", "", ""⟩

/-- A minimal `GetInfo` result. -/
def infoW : DomainInfo := ⟨1, 0, 0, 1, 0⟩

/-- Domain whose single batch VCPU entry has `DelaySet`; every hypervisor
query succeeds and there are no block devices or interfaces. -/
def envW1 : DomainEnv :=
  ⟨0, Except.ok ("vm"), Except.ok (""), Except.ok ("u"), Except.ok xmlW,
   Except.ok infoW, Except.ok [], fun _ => Except.error (GoErr.other ("x")),
   Except.ok [], ⟨[⟨false, 0, true, 2000000000⟩], [], []⟩⟩

/-- Domain with a `DelaySet` VCPU entry whose `GetVcpus` call fails with
`ERR_OPERATION_INVALID` (which `CollectDomain` tolerates). -/
def envC1 : DomainEnv :=
  ⟨0, Except.ok ("vm"), Except.ok (""), Except.ok ("u"), Except.ok xmlW,
   Except.ok infoW, Except.error (GoErr.libvirt 55 ("domain is not running")),
   fun _ => Except.error (GoErr.other ("x")), Except.ok [],
   ⟨[⟨false, 0, true, 1000000000⟩], [], []⟩⟩

/-- Domain with one non-`DelaySet` VCPU entry and one resolved thread id
(150). -/
def envC2 : DomainEnv :=
  ⟨0, Except.ok ("vm"), Except.ok ("thread_id=150\n"), Except.ok ("u"), Except.ok xmlW,
   Except.ok infoW, Except.ok [], fun _ => Except.error (GoErr.other ("x")),
   Except.ok [], ⟨[⟨false, 0, false, 0⟩], [], []⟩⟩

/-! ### Claim C1 -/

/-- C1 (corrected): provided the per-domain queries preceding the VCPU loop
succeed — name, thread-id introspection, UUID, XML description, info — and
the VCPU-info call (`GetVcpus`) also succeeds, every batch VCPU entry with
`DelaySet = true` yields exactly one delay metric for that VCPU, valued at
the hypervisor-reported delay divided by 1e9, and the scheduler-statistics
estimator is never invoked for that VCPU. (The claim as frozen omits the
`GetVcpus` success condition; see the counterexample.) -/
theorem C1_amended (henv : HostEnv) (env : DomainEnv) (em : List String)
    (dn : String) (pids : List Int) (uuid : String) (desc : DomainXML)
    (info : DomainInfo) (vinfos : List VcpuInfo)
    (hname : env.getName = Except.ok dn)
    (hpids : GetDomainVcpuPids env.monitorCpus = Except.ok pids)
    (huuid : env.getUUID = Except.ok uuid)
    (hxml : env.getXMLDesc = Except.ok desc)
    (hinfo : env.getInfo = Except.ok info)
    (hvcpus : env.getVcpus = Except.ok vinfos)
    (j : Nat) (v : VcpuStat) (hj : env.stat.vcpu.get? j = some v)
    (hd : v.delaySet = true) :
    (CollectDomain henv env em).metrics.filter (isDelayAt dn j) =
      [⟨MDesc.vcpuDelay, MetricKind.counter, (v.delay : ℚ) / 1000000000,
        [dn, formatNat j]⟩] ∧
    ∀ c ∈ (CollectDomain henv env em).schedCalls, c.idx ≠ j := by
  obtain ⟨h1, h2⟩ := CollectDomain_delay_char henv env em dn pids uuid desc info vinfos
    hname hpids huuid hxml hinfo hvcpus hj
  constructor
  · rw [h1, vcpuDelayStep_of_delaySet hd]
  · intro c hc
    rw [h2] at hc
    obtain ⟨k, v2, hk, hfalse, hidx⟩ := collectVcpuStatLoop_calls_mem _ _ _ hc
    rw [Nat.zero_add] at hidx
    intro he
    rw [he] at hidx
    rw [← hidx] at hk
    rw [hj] at hk
    have hv : v = v2 := by injection hk
    rw [← hv, hd] at hfalse
    exact absurd hfalse (by decide)

/-- C1 counterexample: in `envC1` the single batch VCPU entry has
`DelaySet = true`, yet `CollectDomain` completes successfully and emits no
delay metric at all, because `GetVcpus` failed with `ERR_OPERATION_INVALID`
(tolerated) and the whole `stat.Vcpu` loop sits inside the success branch of
that call. -/
theorem C1_cex :
    envC1.stat.vcpu.get? 0 = some ⟨false, 0, true, 1000000000⟩ ∧
    (CollectDomain hostW envC1 []).outcome = COutcome.ok ∧
    (CollectDomain hostW envC1 []).metrics.filter (isDelayAt ("vm") 0) = [] := by
  decide

/-- C1 witness: concrete evaluation of the amended claim on `envW1`. -/
theorem C1_witness :
    (CollectDomain hostW envW1 []).metrics.filter (isDelayAt ("vm") 0) =
      [⟨MDesc.vcpuDelay, MetricKind.counter, ((2000000000 : Nat) : ℚ) / 1000000000,
        [("vm"), formatNat 0]⟩] :=
  (C1_amended hostW envW1 [] ("vm") [] ("u") xmlW infoW [] rfl rfl rfl rfl rfl rfl 0
    ⟨false, 0, true, 2000000000⟩ rfl rfl).1

/-! ### Claim C2 -/

/-- C2 (corrected): provided the same per-domain queries succeed (including
`GetVcpus`), for a batch VCPU entry with `DelaySet = false`: if the VCPU
index is within the resolved thread-id list and the matched thread's
schedstat parses, exactly one delay metric is emitted, valued at the
`Runqueue` field divided by 1e9; if the schedstat read or parse fails the
metric is skipped (logged), and if the index is out of bounds no delay
metric is emitted. (The claim as frozen omits both the `GetVcpus` success
condition and the schedstat-read success condition; see the
counterexample.) -/
theorem C2_amended (henv : HostEnv) (env : DomainEnv) (em : List String)
    (dn : String) (pids : List Int) (uuid : String) (desc : DomainXML)
    (info : DomainInfo) (vinfos : List VcpuInfo)
    (hname : env.getName = Except.ok dn)
    (hpids : GetDomainVcpuPids env.monitorCpus = Except.ok pids)
    (huuid : env.getUUID = Except.ok uuid)
    (hxml : env.getXMLDesc = Except.ok desc)
    (hinfo : env.getInfo = Except.ok info)
    (hvcpus : env.getVcpus = Except.ok vinfos)
    (j : Nat) (v : VcpuStat) (hj : env.stat.vcpu.get? j = some v)
    (hd : v.delaySet = false) :
    (∀ (h : j < pids.length) (s : ProcPIDSchedStat),
      GetProcPIDSchedStat henv.readFile (domainTaskRoot henv dn) (pids.get ⟨j, h⟩) =
        some s →
      (CollectDomain henv env em).metrics.filter (isDelayAt dn j) =
        [⟨MDesc.vcpuDelay, MetricKind.counter, (s.runqueue : ℚ) / 1000000000,
          [dn, formatNat j]⟩]) ∧
    (∀ h : j < pids.length,
      GetProcPIDSchedStat henv.readFile (domainTaskRoot henv dn) (pids.get ⟨j, h⟩) =
        none →
      (CollectDomain henv env em).metrics.filter (isDelayAt dn j) = []) ∧
    (pids.length ≤ j →
      (CollectDomain henv env em).metrics.filter (isDelayAt dn j) = []) := by
  obtain ⟨h1, _⟩ := CollectDomain_delay_char henv env em dn pids uuid desc info vinfos
    hname hpids huuid hxml hinfo hvcpus hj
  refine ⟨?_, ?_, ?_⟩
  · intro h s hs
    rw [h1, vcpuDelayStep_of_some hd h s hs]
  · intro h hs
    rw [h1, vcpuDelayStep_of_none hd h hs]
  · intro h
    rw [h1, vcpuDelayStep_of_oob hd h]

/-- C2 counterexample: in `envC2` VCPU 0 has `DelaySet = false` and its index
is within the resolved thread-id list `[150]`, but the schedstat file cannot
be read, so `CollectDomain` succeeds while emitting no delay metric for that
VCPU — the claim as frozen requires one. -/
theorem C2_cex :
    GetDomainVcpuPids envC2.monitorCpus = Except.ok [(150 : Int)] ∧
    envC2.stat.vcpu.get? 0 = some ⟨false, 0, false, 0⟩ ∧
    (CollectDomain hostW envC2 []).outcome = COutcome.ok ∧
    (CollectDomain hostW envC2 []).metrics.filter (isDelayAt ("vm") 0) = [] := by
  decide

/-- C2 witness: with a readable schedstat reporting run-queue time
5,000,000,000 ns for thread 150, the delay metric is emitted with that value
over 1e9. -/
theorem C2_witness :
    (CollectDomain hostW2 envC2 []).metrics.filter (isDelayAt ("vm") 0) =
      [⟨MDesc.vcpuDelay, MetricKind.counter, ((5000000000 : Nat) : ℚ) / 1000000000,
        [("vm"), formatNat 0]⟩] :=
  (C2_amended hostW2 envC2 [] ("vm") [(150 : Int)] ("u") xmlW infoW [] rfl rfl rfl rfl
    rfl rfl 0 ⟨false, 0, false, 0⟩ rfl rfl).1 (by decide) ⟨150, 123, 5000000000, 77⟩
    (by decide)

/-! ### Claim C10 -/

/-- C10 (confirmed): when no process's command line contains the domain name,
`GetDomainPid` returns `0` (the named return's zero value — there is no
distinct "none"), the estimator is invoked under the task root
`<procfs>/0/task` rather than skipped (for an in-bounds VCPU lacking an
explicit delay, given the usual per-domain query successes), and a delay
metric is emitted exactly when a schedstat at that path parses. -/
theorem C10_thm (henv : HostEnv) (env : DomainEnv) (em : List String)
    (dn : String) (pids : List Int) (uuid : String) (desc : DomainXML)
    (info : DomainInfo) (vinfos : List VcpuInfo)
    (hname : env.getName = Except.ok dn)
    (hpids : GetDomainVcpuPids env.monitorCpus = Except.ok pids)
    (huuid : env.getUUID = Except.ok uuid)
    (hxml : env.getXMLDesc = Except.ok desc)
    (hinfo : env.getInfo = Except.ok info)
    (hvcpus : env.getVcpus = Except.ok vinfos)
    (hnoproc : ∀ p ∈ henv.processes, GetCmdLine henv.readFile henv.procFSPath p = "" ∨
      strContains (GetCmdLine henv.readFile henv.procFSPath p) dn = false)
    (j : Nat) (v : VcpuStat) (hj : env.stat.vcpu.get? j = some v)
    (hd : v.delaySet = false) (hlen : j < pids.length) :
    GetDomainPid henv dn = 0 ∧
    domainTaskRoot henv dn = pathJoin (pathJoin henv.procFSPath ("0")) ("task") ∧
    (⟨j, domainTaskRoot henv dn, pids.get ⟨j, hlen⟩⟩ : SchedCall) ∈
      (CollectDomain henv env em).schedCalls ∧
    (GetProcPIDSchedStat henv.readFile (domainTaskRoot henv dn) (pids.get ⟨j, hlen⟩) =
        none →
      (CollectDomain henv env em).metrics.filter (isDelayAt dn j) = []) ∧
    (∀ s, GetProcPIDSchedStat henv.readFile (domainTaskRoot henv dn) (pids.get ⟨j, hlen⟩) =
        some s →
      (CollectDomain henv env em).metrics.filter (isDelayAt dn j) =
        [⟨MDesc.vcpuDelay, MetricKind.counter, (s.runqueue : ℚ) / 1000000000,
          [dn, formatNat j]⟩]) := by
  have hpid0 : GetDomainPid henv dn = 0 := GetDomainPidAux_eq_zero henv.processes hnoproc
  have htr : domainTaskRoot henv dn = pathJoin (pathJoin henv.procFSPath ("0")) ("task") := by
    unfold domainTaskRoot
    rw [hpid0, formatInt_zero]
  obtain ⟨h1, h2⟩ := CollectDomain_delay_char henv env em dn pids uuid desc info vinfos
    hname hpids huuid hxml hinfo hvcpus hj
  refine ⟨hpid0, htr, ?_, ?_, ?_⟩
  · rw [h2]
    apply collectVcpuStatLoop_calls_sub env.stat.vcpu 0 j v hj
    rw [Nat.zero_add]
    cases hs : GetProcPIDSchedStat henv.readFile (domainTaskRoot henv dn)
        (pids.get ⟨j, hlen⟩) with
    | none => rw [vcpuDelayStep_of_none hd hlen hs]; exact List.mem_singleton.mpr rfl
    | some s => rw [vcpuDelayStep_of_some hd hlen s hs]; exact List.mem_singleton.mpr rfl
  · intro hs
    rw [h1, vcpuDelayStep_of_none hd hlen hs]
  · intro s hs
    rw [h1, vcpuDelayStep_of_some hd hlen s hs]

/-- C10 witness: concrete domain with an unmatched name — `GetDomainPid`
yields 0 and the estimator is invoked under `/proc/0/task`. -/
theorem C10_witness :
    GetDomainPid hostW2 ("vm") = 0 ∧
    (⟨0, domainTaskRoot hostW2 ("vm"), (150 : Int)⟩ : SchedCall) ∈
      (CollectDomain hostW2 envC2 []).schedCalls := by
  have h := C10_thm hostW2 envC2 [] ("vm") [(150 : Int)] ("u") xmlW infoW []
    rfl rfl rfl rfl rfl rfl (fun p hp => absurd hp (List.not_mem_nil p)) 0
    ⟨false, 0, false, 0⟩ rfl rfl (by decide)
  exact ⟨h.1, h.2.2.1⟩

/-! ### Claims C3 and C4 -/

/-- A block-statistics entry carrying only a device name (no optional
counters present). -/
def blockW (nm : String) : BlockStat :=
  ⟨nm, false, "", false, 0, false, 0, false, 0, false, 0, false, 0, false, 0,
   false, 0, false, 0, false, 0, false, 0, false, 0⟩

/-- Domain with one batch block device `vda` whose decoded XML descriptor
contains no disk entry at all. -/
def envC3 : DomainEnv :=
  ⟨0, Except.ok ("vm"), Except.ok (""), Except.ok ("u"), Except.ok xmlW,
   Except.ok infoW, Except.ok [], fun _ => Except.error (GoErr.other ("x")),
   Except.ok [], ⟨[], [blockW ("vda")], []⟩⟩

/-- C3 (code_bug): with a block device (`vda`, not a skipped CD-ROM name)
whose target matches no disk entry in the decoded XML, the source leaves the
`*libvirtSchema.Disk` pointer nil and dereferences it while building the
metadata metric, so `CollectDomain` panics instead of emitting the record
with default attribute values: no block metadata metric is produced and the
domain's collection does not complete. -/
theorem C3_thm :
    envC3.stat.block = [blockW ("vda")] ∧
    (match envC3.getXMLDesc with
      | Except.ok d => d.disks
      | Except.error _ => []) = [] ∧
    (CollectDomain hostW envC3 []).outcome = COutcome.panicked ∧
    (CollectDomain hostW envC3 []).metrics.filter
      (fun m => m.desc == MDesc.blockMeta) = [] := by
  decide

/-- A disk descriptor matching device `vda`. -/
def diskXW : DiskXML :=
  ⟨("vda"), ("virtio"), ("src"), ("ser"), ("file"), ("qcow2"), ("none"), ("unmap")⟩

/-- Descriptor containing `diskXW`. -/
def xmlC4 : DomainXML := ⟨[diskXW], [], "", "", "", "", "", "", "", ""⟩

/-- Domain whose `GetBlockIoTune` fails with a libvirt error of code 1
(neither `ERR_OPERATION_INVALID` nor `ERR_OPERATION_UNSUPPORTED`). -/
def envC4a : DomainEnv :=
  ⟨0, Except.ok ("vm"), Except.ok (""), Except.ok ("u"), Except.ok xmlC4,
   Except.ok infoW, Except.ok [],
   fun _ => Except.error (GoErr.libvirt 1 ("internal error")),
   Except.ok [], ⟨[], [blockW ("vda")], []⟩⟩

/-- Domain whose `GetBlockIoTune` fails with `ERR_OPERATION_UNSUPPORTED`. -/
def envC4b : DomainEnv :=
  ⟨0, Except.ok ("vm"), Except.ok (""), Except.ok ("u"), Except.ok xmlC4,
   Except.ok infoW, Except.ok [],
   fun _ => Except.error (GoErr.libvirt 84 ("argument unsupported")),
   Except.ok [], ⟨[], [blockW ("vda")], []⟩⟩

/-- Domain whose `GetBlockIoTune` fails with a non-libvirt error. -/
def envC4c : DomainEnv :=
  ⟨0, Except.ok ("vm"), Except.ok (""), Except.ok ("u"), Except.ok xmlC4,
   Except.ok infoW, Except.ok [],
   fun _ => Except.error (GoErr.other ("boom")),
   Except.ok [], ⟨[], [blockW ("vda")], []⟩⟩

/-- C4 (code_bug): the source checks `if !ok` after the
`err.(libvirt.Error)` assertion, so every libvirt-typed `GetBlockIoTune`
failure is swallowed silently — a code other than invalid/unsupported does
not abort the domain (`envC4a`: outcome ok, claim requires the error to be
returned), an unsupported-operation error is neither logged nor recorded in
the deduplication map (`envC4b`), and only a non-libvirt error reaches the
`switch` (with the zero-value code 0) and aborts (`envC4c`). -/
theorem C4_thm :
    (CollectDomain hostW envC4a []).outcome = COutcome.ok ∧
    (CollectDomain hostW envC4a []).logs = [] ∧
    (CollectDomain hostW envC4a []).errMap = [] ∧
    (CollectDomain hostW envC4b []).outcome = COutcome.ok ∧
    (CollectDomain hostW envC4b []).logs = [] ∧
    (CollectDomain hostW envC4b []).errMap = [] ∧
    (CollectDomain hostW envC4c []).outcome = COutcome.err (GoErr.other ("boom")) := by
  decide

/-! ### Claim C9 -/

theorem infoDescs_not_block {d : MDesc} (h : d ∈ infoDescs) : d ∉ blockDescs := by
  fin_cases h <;> decide

theorem vcpuInfoDescs_not_block {d : MDesc} (h : d ∈ vcpuInfoDescs) : d ∉ blockDescs := by
  fin_cases h <;> decide

theorem ifaceDescs_not_block {d : MDesc} (h : d ∈ ifaceDescs) : d ∉ blockDescs := by
  fin_cases h <;> decide

theorem memDescs_not_block {d : MDesc} (h : d ∈ memDescs) : d ∉ blockDescs := by
  fin_cases h <;> decide

theorem vcpuLoop_not_block {readFile : String → Option String} {dn tr : String}
    {pids : List Int} {vs : List VcpuStat} {i : Nat} {m : Metric}
    (hm : m ∈ (collectVcpuStatLoop readFile dn tr pids i vs).metrics) :
    m.desc ∉ blockDescs := by
  rcases collectVcpuStatLoop_desc vs i m hm with h | h <;> rw [h] <;> decide

theorem CollectDomainTail_ioTuneCalls (env : DomainEnv) (em : List String) (dn : String)
    (ms : List Metric) (calls : List SchedCall) (lgs : List String) (desc : DomainXML) :
    (CollectDomainTail env em dn ms calls lgs desc).ioTuneCalls =
      (collectBlockLoop env.blockIoTune dn desc.disks em env.stat.block).ioTuneCalls := by
  unfold CollectDomainTail CollectDomainTailCore
  split <;> rfl

theorem CollectDomainTail_metric_block (env : DomainEnv) (em : List String) (dn : String)
    (ms : List Metric) (calls : List SchedCall) (lgs : List String) (desc : DomainXML)
    {m : Metric} (hm : m ∈ (CollectDomainTail env em dn ms calls lgs desc).metrics)
    (hd : m.desc ∈ blockDescs) (hms : ∀ m2 ∈ ms, m2.desc ∉ blockDescs) :
    ∃ d ∈ env.stat.block, ¬(d.name = "hdc" ∨ d.name = "hda") ∧
      m.labels.get? 1 = some d.name := by
  unfold CollectDomainTail CollectDomainTailCore at hm
  split at hm
  · simp only [List.mem_append] at hm
    rcases hm with ((h | h) | h) | h
    · exact absurd hd (hms m h)
    · obtain ⟨_, d, hd2, h3, h4⟩ := collectBlockLoop_metrics _ _ _ h
      exact ⟨d, hd2, h3, h4⟩
    · exact absurd hd (ifaceDescs_not_block (collectNetLoop_desc h))
    · exact absurd hd (memDescs_not_block (memoryMetrics_desc h))
  · simp only [List.mem_append] at hm
    rcases hm with h | h
    · exact absurd hd (hms m h)
    · obtain ⟨_, d, hd2, h3, h4⟩ := collectBlockLoop_metrics _ _ _ h
      exact ⟨d, hd2, h3, h4⟩

theorem CollectDomainBody_metric_block (henv : HostEnv) (env : DomainEnv)
    (em : List String) (dn : String) (pid0 : Int) (pids : List Int) {m : Metric}
    (hm : m ∈ (CollectDomainBody henv env em dn pid0 pids).metrics)
    (hd : m.desc ∈ blockDescs) :
    ∃ d ∈ env.stat.block, ¬(d.name = "hdc" ∨ d.name = "hda") ∧
      m.labels.get? 1 = some d.name := by
  unfold CollectDomainBody at hm
  cases huuid : env.getUUID with
  | error e => simp [huuid] at hm
  | ok uuid =>
  cases hxml : env.getXMLDesc with
  | error e => simp [huuid, hxml] at hm
  | ok desc =>
  cases hinfo : env.getInfo with
  | error e => simp [huuid, hxml, hinfo] at hm
  | ok info =>
  cases hv : env.getVcpus with
  | error e =>
    by_cases htol : isOpInvalidTolerated e
    · simp only [huuid, hxml, hinfo, hv, htol, if_true] at hm
      refine CollectDomainTail_metric_block env em dn _ _ _ desc hm hd ?_
      intro m2 hm2
      exact infoDescs_not_block (domainInfoMetrics_desc hm2)
    · simp only [huuid, hxml, hinfo, hv, htol, if_false] at hm
      exact absurd hd (infoDescs_not_block (domainInfoMetrics_desc hm))
  | ok vinfos =>
    simp only [huuid, hxml, hinfo, hv] at hm
    refine CollectDomainTail_metric_block env em dn _ _ _ desc hm hd ?_
    intro m2 hm2
    simp only [List.mem_append] at hm2
    rcases hm2 with (h | h) | h
    · exact infoDescs_not_block (domainInfoMetrics_desc h)
    · exact vcpuInfoDescs_not_block (vcpuInfoMetrics_desc h)
    · exact vcpuLoop_not_block h

theorem CollectDomain_metric_block (henv : HostEnv) (env : DomainEnv)
    (em : List String) {m : Metric} (hm : m ∈ (CollectDomain henv env em).metrics)
    (hd : m.desc ∈ blockDescs) :
    ∃ d ∈ env.stat.block, ¬(d.name = "hdc" ∨ d.name = "hda") ∧
      m.labels.get? 1 = some d.name := by
  unfold CollectDomain at hm
  cases hname : env.getName with
  | error e => simp [hname] at hm
  | ok dn =>
  cases hq : GetDomainVcpuPids env.monitorCpus with
  | error e =>
    by_cases htol : isOpInvalidTolerated e
    · simp only [hname, hq, htol, if_true] at hm
      exact CollectDomainBody_metric_block henv env em dn _ [] hm hd
    · simp only [hname, hq, htol, if_false] at hm
      simp at hm
  | ok pids =>
    simp only [hname, hq] at hm
    exact CollectDomainBody_metric_block henv env em dn _ pids hm hd

theorem CollectDomainBody_calls_char (henv : HostEnv) (env : DomainEnv)
    (em : List String) (dn : String) (pid0 : Int) (pids : List Int) {s : String}
    (hs : s ∈ (CollectDomainBody henv env em dn pid0 pids).ioTuneCalls) :
    ∃ d ∈ env.stat.block, ¬(d.name = "hdc" ∨ d.name = "hda") ∧ s = d.name := by
  unfold CollectDomainBody at hs
  cases huuid : env.getUUID with
  | error e => simp [huuid] at hs
  | ok uuid =>
  cases hxml : env.getXMLDesc with
  | error e => simp [huuid, hxml] at hs
  | ok desc =>
  cases hinfo : env.getInfo with
  | error e => simp [huuid, hxml, hinfo] at hs
  | ok info =>
  cases hv : env.getVcpus with
  | error e =>
    by_cases htol : isOpInvalidTolerated e
    · simp only [huuid, hxml, hinfo, hv, htol, if_true] at hs
      rw [CollectDomainTail_ioTuneCalls] at hs
      exact collectBlockLoop_calls _ _ _ hs
    · simp only [huuid, hxml, hinfo, hv, htol, if_false] at hs
      simp at hs
  | ok vinfos =>
    simp only [huuid, hxml, hinfo, hv] at hs
    rw [CollectDomainTail_ioTuneCalls] at hs
    exact collectBlockLoop_calls _ _ _ hs

theorem CollectDomain_calls_char (henv : HostEnv) (env : DomainEnv)
    (em : List String) {s : String}
    (hs : s ∈ (CollectDomain henv env em).ioTuneCalls) :
    ∃ d ∈ env.stat.block, ¬(d.name = "hdc" ∨ d.name = "hda") ∧ s = d.name := by
  unfold CollectDomain at hs
  cases hname : env.getName with
  | error e => simp [hname] at hs
  | ok dn =>
  cases hq : GetDomainVcpuPids env.monitorCpus with
  | error e =>
    by_cases htol : isOpInvalidTolerated e
    · simp only [hname, hq, htol, if_true] at hs
      exact CollectDomainBody_calls_char henv env em dn _ [] hs
    · simp only [hname, hq, htol, if_false] at hs
      simp at hs
  | ok pids =>
    simp only [hname, hq] at hs
    exact CollectDomainBody_calls_char henv env em dn _ pids hs

/-- C9 (confirmed): for every domain and every batch block device named
exactly `hdc` or `hda`, `CollectDomain` emits no block-device metric for
that device — every emitted metric with a block-section descriptor carries a
device label drawn from a non-`hdc`/`hda` device — and `GetBlockIoTune`
(whose result feeds the I/O-tuning limit metrics) is never queried for such
a device. This holds for every environment unconditionally. -/
theorem C9_thm (henv : HostEnv) (env : DomainEnv) (em : List String) :
    (∀ m ∈ (CollectDomain henv env em).metrics, m.desc ∈ blockDescs →
      m.labels.get? 1 ≠ some ("hdc") ∧ m.labels.get? 1 ≠ some ("hda")) ∧
    (∀ s ∈ (CollectDomain henv env em).ioTuneCalls, s ≠ ("hdc") ∧ s ≠ ("hda")) := by
  constructor
  · intro m hm hd
    obtain ⟨d, _, hne, hlab⟩ := CollectDomain_metric_block henv env em hm hd
    rw [hlab]
    constructor
    · intro he
      injection he with he2
      exact hne (Or.inl he2)
    · intro he
      injection he with he2
      exact hne (Or.inr he2)
  · intro s hs
    obtain ⟨d, _, hne, rfl⟩ := CollectDomain_calls_char henv env em hs
    exact ⟨fun he => hne (Or.inl he), fun he => hne (Or.inr he)⟩

/-- C9 witness: evaluated on a concrete domain whose only (non-skipped)
block device is `vda`, whose `GetBlockIoTune` query is indeed recorded. -/
theorem C9_witness : ("vda" : String) ≠ ("hdc") ∧ ("vda" : String) ≠ ("hda") :=
  (C9_thm hostW envC4a []).2 ("vda") (by decide)

/-! ### Claim C5 -/

/-- C5 (confirmed): when the batched all-domain statistics call fails (after
a successful connect and version queries), the scrape emits the `up` gauge
with value 0 and every metric of that scrape is either the `up` gauge or the
versions-info metric — no domain, VCPU, block, interface, memory or pool
metric is emitted; and whenever the whole scrape succeeds, the `up` gauge is
emitted with value 1. -/
theorem C5_thm (env : ScrapeEnv) (em : List String)
    (hc : env.connect = none)
    (h1 : ∃ a, env.getVersion = Except.ok a)
    (h2 : ∃ b, env.getLibVersion = Except.ok b)
    (h3 : ∃ c, env.libraryVersion = Except.ok c) :
    (∀ e, env.allDomainStats = Except.error e →
      ((⟨MDesc.up, MetricKind.gauge, 0, []⟩ : Metric) ∈ (Collect env em).metrics ∧
       ∀ m ∈ (Collect env em).metrics,
         m.desc = MDesc.up ∨ m.desc = MDesc.versionsInfo)) ∧
    ((CollectFromLibvirt env em).outcome = COutcome.ok →
      (⟨MDesc.up, MetricKind.gauge, 1, []⟩ : Metric) ∈ (Collect env em).metrics) := by
  obtain ⟨a, ha⟩ := h1
  obtain ⟨b, hb⟩ := h2
  obtain ⟨c, hcc⟩ := h3
  constructor
  · intro e hds
    have hcf : CollectFromLibvirt env em =
        ⟨[⟨MDesc.versionsInfo, MetricKind.gauge, 1,
           [formatVersion a, formatVersion b, formatVersion c]⟩],
         [], em, [], [], [], [], COutcome.err e⟩ := by
      unfold CollectFromLibvirt
      simp only [hc, ha, hb, hcc, hds]
    constructor
    · simp only [Collect, hcf]
      simp
    · intro m hm
      simp only [Collect, hcf] at hm
      simp at hm
      rcases hm with rfl | rfl
      all_goals first
        | exact Or.inl rfl
        | exact Or.inr rfl
  · intro hok
    simp only [Collect, hok]
    simp

/-! ### Claim C6 -/

theorem collectPools_freed :
    ∀ ps : List PoolEnv,
      ∃ n, (collectPools ps).2.1 = (ps.map (fun p => p.handleId)).take n ∧
        ((collectPools ps).2.2 = none →
          (collectPools ps).2.1 = ps.map (fun p => p.handleId)) := by
  intro ps
  induction ps with
  | nil => exact ⟨0, rfl, fun _ => rfl⟩
  | cons p rest ih =>
    cases hr : (CollectStoragePool p).2 with
    | some e =>
      refine ⟨1, ?_, ?_⟩
      · simp only [collectPools, hr, List.map_cons, List.take_succ_cons, List.take_zero]
      · intro h
        simp only [collectPools, hr] at h
        cases h
    | none =>
      obtain ⟨n, hn, hall⟩ := ih
      refine ⟨n + 1, ?_, ?_⟩
      · simp only [collectPools, hr, List.map_cons, List.take_succ_cons]
        rw [hn]
      · intro h
        simp only [collectPools, hr] at h ⊢
        rw [hall h, List.map_cons]

/-- C6 (corrected): after a successful connect and version queries, every
domain handle acquired by the batched statistics call is released before
`CollectFromLibvirt` returns, on every exit path (the deferred free loop);
pool handles, however, are only released up to and including the pool whose
collection fails — the freed pool handles always form a prefix of the
acquired ones, complete exactly when the pool loop runs without error. (The
claim as frozen asserts every acquired pool handle is released on every exit
path; see the counterexample, where a pool after the failing one leaks.) -/
theorem C6_amended (env : ScrapeEnv) (em : List String)
    (hc : env.connect = none)
    (h1 : ∃ a, env.getVersion = Except.ok a)
    (h2 : ∃ b, env.getLibVersion = Except.ok b)
    (h3 : ∃ c, env.libraryVersion = Except.ok c) :
    (∀ ds, env.allDomainStats = Except.ok ds →
      (CollectFromLibvirt env em).freedDomains = ds.map (fun d => d.handleId)) ∧
    (∀ ps, env.listAllStoragePools = Except.ok ps →
      ∃ n, (CollectFromLibvirt env em).freedPools =
          (ps.map (fun p => p.handleId)).take n ∧
        ((CollectFromLibvirt env em).outcome = COutcome.ok →
          (CollectFromLibvirt env em).freedPools = ps.map (fun p => p.handleId))) := by
  obtain ⟨a, ha⟩ := h1
  obtain ⟨b, hb⟩ := h2
  obtain ⟨c, hcc⟩ := h3
  cases hds : env.allDomainStats with
  | error e =>
    constructor
    · intro ds hds2
      cases hds2
    · intro ps hps
      refine ⟨0, ?_, ?_⟩
      · unfold CollectFromLibvirt
        simp only [hc, ha, hb, hcc, hds, List.take_zero]
      · intro hok
        unfold CollectFromLibvirt at hok
        simp only [hc, ha, hb, hcc, hds] at hok
        cases hok
  | ok ds =>
    cases hdl : (collectDomainsLoop ⟨env.procFSPath, env.processList, env.readFile⟩
        em ds).outcome with
    | ok =>
      cases hps0 : env.listAllStoragePools with
      | error e =>
        constructor
        · intro ds2 hds2
          injection hds2 with hds3
          subst hds3
          unfold CollectFromLibvirt
          simp only [hc, ha, hb, hcc, hds, hdl, hps0]
        · intro ps hps
          cases hps
      | ok ps0 =>
        cases hperr : (collectPools ps0).2.2 with
        | some e =>
          constructor
          · intro ds2 hds2
            injection hds2 with hds3
            subst hds3
            unfold CollectFromLibvirt
            simp only [hc, ha, hb, hcc, hds, hdl, hps0, hperr]
          · intro ps hps
            injection hps with hps2
            subst hps2
            obtain ⟨n, hn, _⟩ := collectPools_freed ps0
            refine ⟨n, ?_, ?_⟩
            · unfold CollectFromLibvirt
              simp only [hc, ha, hb, hcc, hds, hdl, hps0, hperr]
              exact hn
            · intro hok
              unfold CollectFromLibvirt at hok
              simp only [hc, ha, hb, hcc, hds, hdl, hps0, hperr] at hok
              cases hok
        | none =>
          constructor
          · intro ds2 hds2
            injection hds2 with hds3
            subst hds3
            unfold CollectFromLibvirt
            simp only [hc, ha, hb, hcc, hds, hdl, hps0, hperr]
          · intro ps hps
            injection hps with hps2
            subst hps2
            obtain ⟨n, hn, hall⟩ := collectPools_freed ps0
            refine ⟨ps0.length, ?_, ?_⟩
            · unfold CollectFromLibvirt
              simp only [hc, ha, hb, hcc, hds, hdl, hps0, hperr]
              rw [hall hperr]
              rw [← List.length_map ps0 (fun p => p.handleId), List.take_length]
            · intro _
              unfold CollectFromLibvirt
              simp only [hc, ha, hb, hcc, hds, hdl, hps0, hperr]
              exact hall hperr
    | err e =>
      constructor
      · intro ds2 hds2
        injection hds2 with hds3
        subst hds3
        unfold CollectFromLibvirt
        simp only [hc, ha, hb, hcc, hds, hdl]
      · intro ps hps
        refine ⟨0, ?_, ?_⟩
        · unfold CollectFromLibvirt
          simp only [hc, ha, hb, hcc, hds, hdl, List.take_zero]
        · intro hok
          unfold CollectFromLibvirt at hok
          simp only [hc, ha, hb, hcc, hds, hdl] at hok
          cases hok
    | panicked =>
      constructor
      · intro ds2 hds2
        injection hds2 with hds3
        subst hds3
        unfold CollectFromLibvirt
        simp only [hc, ha, hb, hcc, hds, hdl]
      · intro ps hps
        refine ⟨0, ?_, ?_⟩
        · unfold CollectFromLibvirt
          simp only [hc, ha, hb, hcc, hds, hdl, List.take_zero]
        · intro hok
          unfold CollectFromLibvirt at hok
          simp only [hc, ha, hb, hcc, hds, hdl] at hok
          cases hok

/-! ### Concrete scrape environments -/

/-- An active pool that collects successfully. -/
def poolOk (i : Nat) (nm : String) : PoolEnv :=
  ⟨i, none, Except.ok nm, Except.ok ⟨100, 40, 60⟩⟩

/-- A pool whose `Refresh` fails. -/
def poolBad : PoolEnv :=
  ⟨1, some (GoErr.other ("refresh failed")), Except.ok ("p1"), Except.ok ⟨0, 0, 0⟩⟩

/-- Scrape whose batched domain-statistics call fails. -/
def envC5 : ScrapeEnv :=
  ⟨none, Except.ok 7002000, Except.ok 7002000, Except.ok 7002000, [], ("/proc"),
   fun _ => none, Except.error (GoErr.libvirt 1 ("query failed")), Except.ok []⟩

/-- Scrape with no domains and two active pools, the first of which fails. -/
def envC6 : ScrapeEnv :=
  ⟨none, Except.ok 7002000, Except.ok 7002000, Except.ok 7002000, [], ("/proc"),
   fun _ => none, Except.ok [], Except.ok [poolBad, poolOk 2 ("p2")]⟩

/-- Scrape with one healthy domain and one healthy pool. -/
def envC6w : ScrapeEnv :=
  ⟨none, Except.ok 7002000, Except.ok 7002000, Except.ok 7002000, [], ("/proc"),
   fun _ => none, Except.ok [envW1], Except.ok [poolOk 2 ("p2")]⟩

/-- C5 witness: on `envC5` the failing batch call yields the `up` gauge at 0. -/
theorem C5_witness :
    (⟨MDesc.up, MetricKind.gauge, 0, []⟩ : Metric) ∈ (Collect envC5 []).metrics :=
  ((C5_thm envC5 [] rfl ⟨7002000, rfl⟩ ⟨7002000, rfl⟩ ⟨7002000, rfl⟩).1
    (GoErr.libvirt 1 ("query failed")) rfl).1

/-- C6 counterexample: two pool handles (ids 1 and 2) are acquired, the first
pool's refresh fails, and only handle 1 is freed before the error returns —
handle 2 leaks, contradicting the claim that every acquired handle is
released on every exit path. -/
theorem C6_cex :
    (match envC6.listAllStoragePools with
      | Except.ok ps => ps.map (fun p => p.handleId)
      | Except.error _ => []) = [1, 2] ∧
    (CollectFromLibvirt envC6 []).freedPools = [1] ∧
    (CollectFromLibvirt envC6 []).outcome =
      COutcome.err (GoErr.other ("refresh failed")) := by
  decide

/-- C6 witness: on `envC6w` the amended claim evaluates concretely — the
single domain handle is freed. -/
theorem C6_witness :
    (CollectFromLibvirt envC6w []).freedDomains = [envW1].map (fun d => d.handleId) :=
  (C6_amended envC6w [] rfl ⟨7002000, rfl⟩ ⟨7002000, rfl⟩ ⟨7002000, rfl⟩).1 [envW1] rfl

/-! ### Claims C7 and C8 -/

theorem memDescs_not_info {d : MDesc} (h : d ∈ memDescs) : d ∉ infoDescs := by
  fin_cases h <;> decide

theorem memDescs_not_vcpuInfo {d : MDesc} (h : d ∈ memDescs) : d ∉ vcpuInfoDescs := by
  fin_cases h <;> decide

theorem memDescs_not_iface {d : MDesc} (h : d ∈ memDescs) : d ∉ ifaceDescs := by
  fin_cases h <;> decide

theorem memDescs_not_vcpuLoop {d : MDesc} (h : d ∈ memDescs) :
    d ∉ [MDesc.vcpuWait, MDesc.vcpuDelay] := by
  fin_cases h <;> decide

theorem memoryMetrics_usedPercent (dn : String) (l : List DomainMemoryStat) :
    (memoryMetrics dn (Except.ok l)).filter (fun m => m.desc == MDesc.memUsedPercent) =
      [⟨MDesc.memUsedPercent, MetricKind.gauge, domainUsedPercent l, [dn]⟩] := by
  simp [memoryMetrics]

theorem memoryMetrics_count (dn : String) (r : Except GoErr (List DomainMemoryStat))
    (d : MDesc) (hd : d ∈ memDescs) :
    ((memoryMetrics dn r).filter (fun m => m.desc == d)).length = 1 := by
  fin_cases hd <;> simp [memoryMetrics]

theorem memoryMetrics_err_value (dn : String) (e : GoErr) {m : Metric}
    (hm : m ∈ memoryMetrics dn (Except.error e)) : m.value = 0 := by
  simp only [memoryMetrics, List.mem_cons, List.mem_singleton] at hm
  rcases hm with rfl | rfl | rfl | rfl | rfl | rfl | rfl | rfl | rfl | h
  all_goals try simp [VirDomainMemoryStats.zero]
  simp at h

/-- The successful-path equation: with all preliminary queries successful,
`CollectDomain` is the tail applied to the head and VCPU sections. -/
theorem CollectDomain_eq_tail (henv : HostEnv) (env : DomainEnv) (em : List String)
    (dn : String) (pids : List Int) (uuid : String) (desc : DomainXML)
    (info : DomainInfo) (vinfos : List VcpuInfo)
    (hname : env.getName = Except.ok dn)
    (hpids : GetDomainVcpuPids env.monitorCpus = Except.ok pids)
    (huuid : env.getUUID = Except.ok uuid)
    (hxml : env.getXMLDesc = Except.ok desc)
    (hinfo : env.getInfo = Except.ok info)
    (hvcpus : env.getVcpus = Except.ok vinfos) :
    CollectDomain henv env em =
      CollectDomainTail env em dn
        (domainInfoMetrics dn uuid desc info ++ vcpuInfoMetrics dn vinfos ++
          (collectVcpuStatLoop henv.readFile dn (domainTaskRoot henv dn) pids 0
            env.stat.vcpu).metrics)
        (collectVcpuStatLoop henv.readFile dn (domainTaskRoot henv dn) pids 0
          env.stat.vcpu).schedCalls
        (collectVcpuStatLoop henv.readFile dn (domainTaskRoot henv dn) pids 0
          env.stat.vcpu).logs desc := by
  unfold CollectDomain CollectDomainBody domainTaskRoot
  simp only [hname, hpids, huuid, hxml, hinfo, hvcpus]

theorem CollectDomain_filter_memdesc (henv : HostEnv) (env : DomainEnv) (em : List String)
    (dn : String) (pids : List Int) (uuid : String) (desc : DomainXML)
    (info : DomainInfo) (vinfos : List VcpuInfo)
    (hname : env.getName = Except.ok dn)
    (hpids : GetDomainVcpuPids env.monitorCpus = Except.ok pids)
    (huuid : env.getUUID = Except.ok uuid)
    (hxml : env.getXMLDesc = Except.ok desc)
    (hinfo : env.getInfo = Except.ok info)
    (hvcpus : env.getVcpus = Except.ok vinfos)
    (hb : (collectBlockLoop env.blockIoTune dn desc.disks em env.stat.block).outcome =
      COutcome.ok)
    (d : MDesc) (hd : d ∈ memDescs) :
    (CollectDomain henv env em).metrics.filter (fun m => m.desc == d) =
      (memoryMetrics dn env.memoryStats).filter (fun m => m.desc == d) := by
  rw [CollectDomain_eq_tail henv env em dn pids uuid desc info vinfos
    hname hpids huuid hxml hinfo hvcpus]
  rw [CollectDomainTail_ok_metrics env em dn _ _ _ desc hb]
  simp only [List.filter_append]
  have hloop : ∀ m ∈ (collectVcpuStatLoop henv.readFile dn (domainTaskRoot henv dn)
      pids 0 env.stat.vcpu).metrics, m.desc ∈ [MDesc.vcpuWait, MDesc.vcpuDelay] := by
    intro m hm
    rcases collectVcpuStatLoop_desc env.stat.vcpu 0 m hm with h | h <;> simp [h]
  rw [filter_desc_nil (fun m hm => domainInfoMetrics_desc hm) (memDescs_not_info hd)]
  rw [filter_desc_nil (fun m hm => vcpuInfoMetrics_desc hm) (memDescs_not_vcpuInfo hd)]
  rw [filter_desc_nil hloop (memDescs_not_vcpuLoop hd)]
  rw [filter_desc_nil (fun m hm => (collectBlockLoop_metrics _ _ _ hm).1)
    (memDescs_not_block hd)]
  rw [filter_desc_nil (fun m hm => collectNetLoop_desc hm) (memDescs_not_iface hd)]
  simp

/-- C7 (confirmed): with the usual per-domain query successes and a
successful block loop and memory-statistics call, the emitted used-percent
metric's value is `(available - usable) / (available / 100)` when both
fields are non-zero and `0` when either is zero, and whenever
`available > 0` and `usable ≤ available` that value lies in `[0, 100]`. -/
theorem C7_thm (henv : HostEnv) (env : DomainEnv) (em : List String)
    (dn : String) (pids : List Int) (uuid : String) (desc : DomainXML)
    (info : DomainInfo) (vinfos : List VcpuInfo) (l : List DomainMemoryStat)
    (hname : env.getName = Except.ok dn)
    (hpids : GetDomainVcpuPids env.monitorCpus = Except.ok pids)
    (huuid : env.getUUID = Except.ok uuid)
    (hxml : env.getXMLDesc = Except.ok desc)
    (hinfo : env.getInfo = Except.ok info)
    (hvcpus : env.getVcpus = Except.ok vinfos)
    (hb : (collectBlockLoop env.blockIoTune dn desc.disks em env.stat.block).outcome =
      COutcome.ok)
    (hmem : env.memoryStats = Except.ok l) :
    (CollectDomain henv env em).metrics.filter
        (fun m => m.desc == MDesc.memUsedPercent) =
      [⟨MDesc.memUsedPercent, MetricKind.gauge, domainUsedPercent l, [dn]⟩] ∧
    ((memoryStatCollect l).usable ≠ 0 → (memoryStatCollect l).available ≠ 0 →
      domainUsedPercent l =
        (((memoryStatCollect l).available : ℚ) - ((memoryStatCollect l).usable : ℚ)) /
          (((memoryStatCollect l).available : ℚ) / 100)) ∧
    ((memoryStatCollect l).usable = 0 ∨ (memoryStatCollect l).available = 0 →
      domainUsedPercent l = 0) ∧
    (0 < (memoryStatCollect l).available →
      (memoryStatCollect l).usable ≤ (memoryStatCollect l).available →
      0 ≤ domainUsedPercent l ∧ domainUsedPercent l ≤ 100) := by
  refine ⟨?_, ?_, ?_, ?_⟩
  · rw [CollectDomain_filter_memdesc henv env em dn pids uuid desc info vinfos
      hname hpids huuid hxml hinfo hvcpus hb MDesc.memUsedPercent (by decide)]
    rw [hmem, memoryMetrics_usedPercent]
  · intro h1 h2
    unfold domainUsedPercent
    rw [if_pos ⟨h1, h2⟩]
  · intro h
    unfold domainUsedPercent
    rw [if_neg]
    intro hcon
    rcases h with h | h
    · exact hcon.1 h
    · exact hcon.2 h
  · intro hpos hle
    by_cases hu : (memoryStatCollect l).usable = 0
    · have h0 : domainUsedPercent l = 0 := by
        unfold domainUsedPercent
        rw [if_neg]
        intro hcon
        exact hcon.1 hu
      rw [h0]
      norm_num
    · have ha : (memoryStatCollect l).available ≠ 0 := by omega
      have hval : domainUsedPercent l =
          (((memoryStatCollect l).available : ℚ) - ((memoryStatCollect l).usable : ℚ)) /
            (((memoryStatCollect l).available : ℚ) / 100) := by
        unfold domainUsedPercent
        rw [if_pos ⟨hu, ha⟩]
      rw [hval]
      have haq : (0 : ℚ) < ((memoryStatCollect l).available : ℚ) := by
        exact_mod_cast hpos
      have huq : ((memoryStatCollect l).usable : ℚ) ≤
          ((memoryStatCollect l).available : ℚ) := by
        exact_mod_cast hle
      have huq0 : (0 : ℚ) ≤ ((memoryStatCollect l).usable : ℚ) := by positivity
      have hc : (0 : ℚ) < ((memoryStatCollect l).available : ℚ) / 100 := by positivity
      constructor
      · apply div_nonneg
        · linarith
        · linarith
      · rw [div_le_iff₀ hc]
        have h100 : (100 : ℚ) * (((memoryStatCollect l).available : ℚ) / 100) =
            ((memoryStatCollect l).available : ℚ) := by
          field_simp
        linarith [h100]

/-- C8 (confirmed): with the usual per-domain query successes and a
successful block loop, all nine memory-statistics metrics are emitted
exactly once per scrape for the domain, and when the memory-statistics call
fails they are all emitted with value zero rather than omitted. -/
theorem C8_thm (henv : HostEnv) (env : DomainEnv) (em : List String)
    (dn : String) (pids : List Int) (uuid : String) (desc : DomainXML)
    (info : DomainInfo) (vinfos : List VcpuInfo)
    (hname : env.getName = Except.ok dn)
    (hpids : GetDomainVcpuPids env.monitorCpus = Except.ok pids)
    (huuid : env.getUUID = Except.ok uuid)
    (hxml : env.getXMLDesc = Except.ok desc)
    (hinfo : env.getInfo = Except.ok info)
    (hvcpus : env.getVcpus = Except.ok vinfos)
    (hb : (collectBlockLoop env.blockIoTune dn desc.disks em env.stat.block).outcome =
      COutcome.ok) :
    (∀ d ∈ memDescs,
      ((CollectDomain henv env em).metrics.filter (fun m => m.desc == d)).length = 1) ∧
    (∀ e, env.memoryStats = Except.error e →
      ∀ m ∈ (CollectDomain henv env em).metrics, m.desc ∈ memDescs → m.value = 0) := by
  constructor
  · intro d hd
    rw [CollectDomain_filter_memdesc henv env em dn pids uuid desc info vinfos
      hname hpids huuid hxml hinfo hvcpus hb d hd]
    exact memoryMetrics_count dn env.memoryStats d hd
  · intro e hmem m hm hd
    rw [CollectDomain_eq_tail henv env em dn pids uuid desc info vinfos
      hname hpids huuid hxml hinfo hvcpus] at hm
    rw [CollectDomainTail_ok_metrics env em dn _ _ _ desc hb] at hm
    simp only [List.mem_append] at hm
    rcases hm with ((((h | h) | h) | h) | h) | h
    · exact absurd (domainInfoMetrics_desc h) (memDescs_not_info hd)
    · exact absurd (vcpuInfoMetrics_desc h) (memDescs_not_vcpuInfo hd)
    · rcases collectVcpuStatLoop_desc env.stat.vcpu 0 m h with h2 | h2 <;>
        (rw [h2] at hd; exact absurd hd (by decide))
    · exact absurd (collectBlockLoop_metrics _ _ _ h).1 (memDescs_not_block hd)
    · exact absurd (collectNetLoop_desc h) (memDescs_not_iface hd)
    · rw [hmem] at h
      exact memoryMetrics_err_value dn e h

/-- Domain whose memory statistics report available = 800 KiB (tag 5) and
usable = 600 KiB (tag 8). -/
def envW7 : DomainEnv :=
  ⟨0, Except.ok ("vm"), Except.ok (""), Except.ok ("u"), Except.ok xmlW,
   Except.ok infoW, Except.ok [], fun _ => Except.error (GoErr.other ("x")),
   Except.ok [⟨5, 800⟩, ⟨8, 600⟩], ⟨[], [], []⟩⟩

/-- Domain whose memory-statistics call fails. -/
def envW8 : DomainEnv :=
  ⟨0, Except.ok ("vm"), Except.ok (""), Except.ok ("u"), Except.ok xmlW,
   Except.ok infoW, Except.ok [], fun _ => Except.error (GoErr.other ("x")),
   Except.error (GoErr.libvirt 1 ("mem stats failed")), ⟨[], [], []⟩⟩

/-- C7 witness: concrete domain with available = 800 and usable = 600 — the
used-percent metric is emitted with the formula's value. -/
theorem C7_witness :
    (CollectDomain hostW envW7 []).metrics.filter
        (fun m => m.desc == MDesc.memUsedPercent) =
      [⟨MDesc.memUsedPercent, MetricKind.gauge,
        domainUsedPercent [⟨5, 800⟩, ⟨8, 600⟩], [("vm")]⟩] :=
  (C7_thm hostW envW7 [] ("vm") [] ("u") xmlW infoW [] [⟨5, 800⟩, ⟨8, 600⟩]
    rfl rfl rfl rfl rfl rfl (by decide) rfl).1

/-- C8 witness: with a failed memory-statistics call, the used-percent
metric is still emitted exactly once. -/
theorem C8_witness :
    ((CollectDomain hostW envW8 []).metrics.filter
      (fun m => m.desc == MDesc.memUsedPercent)).length = 1 :=
  (C8_thm hostW envW8 [] ("vm") [] ("u") xmlW infoW []
    rfl rfl rfl rfl rfl rfl (by decide)).1 MDesc.memUsedPercent (by decide)

end LibvirtExp
